import Mathlib

/-!
Tile layout of the tiled PNG viewer, and the single-quad JPEG and TIFF viewers.

A shallow embedding of `Camera`, `Texture::init`, `Texture::render` and `main` of
`Projects/IorpMonolithics0/src/textures/texture_png_tiled0.main.cpp`, and, in the
namespaces `Jpg` and `Tif`, of `texture_jpg.main.cpp` and `texture_tif.main.cpp`
(with `Texture::loadTIFF`).

* C++ `int` values are integers; `/` and `%` on `int` are the truncating
  `Int.tdiv` and `Int.tmod`.  Signed overflow is undefined in C++ and is not
  modelled: for an image size up to `2 ^ 31 - 256` every intermediate value of the
  layout arithmetic stays inside the range of `int`.
* `uint32_t` arithmetic is taken modulo `2 ^ 32` and `size_t` arithmetic modulo
  `2 ^ 64`.
* C++ `float` values are exact rationals in the vertex data and the model transform
  of `Texture.renderTile` and in the camera; `binary32` is the rounding of `float`, and
  `Texture.tileModelF32` is the model transform of a tile with every operation rounded.
* OpenGL, GLFW, stb_image, libtiff and glm are collaborators: their answers are
  arguments of the embedded functions, a draw call is recorded with the buffer contents
  and the uniform that are current when `glDrawElements` is issued, and
  `glm::translate` and `glm::scale` multiply their matrix argument from the right.
-/

namespace IorpMonolithics

/-! ## Machine arithmetic and loops -/

/-- C++ `a / b` on `int`: the quotient truncated toward zero. -/
def intDiv (a b : Int) : Int := Int.tdiv a b

/-- C++ `a % b` on `int`: the remainder, with the sign of the dividend. -/
def intMod (a b : Int) : Int := Int.tmod a b

/-- The loop `for (int i = start; i < stop; ++i) body(i)`, started at `i`; the
result lists what the iterations emit, in execution order. -/
def forLoop {α : Type} (stop : Int) (body : Int → List α) (i : Int) : List α :=
  if i < stop then body i ++ forLoop stop body (i + 1) else []
termination_by (stop - i).toNat
decreasing_by omega

/-! ## glm -/

/-- A `glm::mat4` with rational entries, `M i j` being row `i`, column `j`. -/
abbrev Mat4 := Matrix (Fin 4) (Fin 4) ℚ

/-- The library call `glm::scale(m, vec3(x, y, z))`: `m` times the scaling matrix. -/
def glmScale (m : Mat4) (x y z : ℚ) : Mat4 :=
  m * !![x, 0, 0, 0; 0, y, 0, 0; 0, 0, z, 0; 0, 0, 0, 1]

/-- The library call `glm::translate(m, vec3(x, y, z))`: `m` times the translation
matrix. -/
def glmTranslate (m : Mat4) (x y z : ℚ) : Mat4 :=
  m * !![1, 0, 0, x; 0, 1, 0, y; 0, 0, 1, z; 0, 0, 0, 1]

/-! ## Constants and state -/

/-- The file-scope constants `tileWidth` and `tileHeight`. -/
structure TileConfig where
  tileWidth : Int
  tileHeight : Int
  deriving DecidableEq, Repr

/-- The values the program gives them: `const int tileWidth = 256`,
`const int tileHeight = 256`. -/
def tileConfig : TileConfig := { tileWidth := 256, tileHeight := 256 }

/-- The fields of `class Camera`. -/
structure Camera where
  scale : ℚ
  offset : ℚ × ℚ
  deriving DecidableEq

/-- The constructor `Camera()`. -/
def Camera.new : Camera := { scale := 1, offset := (0, 0) }

/-- The method `Camera::getTransform`. -/
def Camera.getTransform (c : Camera) : Mat4 :=
  let model : Mat4 := 1
  let model := glmScale model c.scale c.scale 1
  let model := glmTranslate model c.offset.1 c.offset.2 0
  model

/-- The data members of `class Texture`; `m_camera` is a pointer, `none` being
`nullptr`. -/
structure Texture where
  shaderProgram : Nat
  modelLoc : Int
  VAO : Nat
  VBO : Nat
  EBO : Nat
  textureID : Nat
  m_camera : Option Nat
  imageWidth : Int
  imageHeight : Int
  numTilesX : Int
  numTilesY : Int
  deriving DecidableEq, Repr

/-- What `stbi_load` leaves behind: whether the returned pixel pointer is non-null,
and the contents of its out-parameters `imageWidth` and `imageHeight` after the
call. -/
structure StbiLoad where
  data : Bool
  x : Int
  y : Int
  deriving DecidableEq, Repr

/-- What the OpenGL driver answers during `Texture::init`: the object names it hands
out, and for the vertex shader, the fragment shader and the program the info log when
compiling or linking failed (`none` when the status is success). -/
structure GLObjects where
  program : Nat
  vao : Nat
  vbo : Nat
  ebo : Nat
  texture : Nat
  modelLoc : Int
  vertexLog : Option String := none
  fragmentLog : Option String := none
  linkLog : Option String := none
  deriving DecidableEq, Repr

/-- One `printf` of `Texture::init`: the text before the numbers and the two `%d`
arguments. -/
structure Printed where
  label : String
  fst : Int
  snd : Int
  deriving DecidableEq, Repr

/-- The output of `Texture::init`: the lines sent to `std::cerr` and the `printf`
lines. -/
structure InitOutput where
  cerr : List String
  printed : List Printed
  deriving DecidableEq, Repr

/-! ## `Texture::init` -/

/-- What `compileShader` writes to `std::cerr` (lines 193 to 196 of the PNG program, the
same text in the JPEG program): nothing on success, one line with the info log
otherwise. -/
def compileShader (log : Option String) : List String :=
  match log with
  | none => []
  | some infoLog => ["Shader Compilation Error: " ++ infoLog]

/-- The function `createShaderProgram` of the PNG and the JPEG program: the program
name and the lines written to `std::cerr` by the two `compileShader` calls and by the
link check. -/
def createShaderProgram (gl : GLObjects) : Nat × List String :=
  let vertexShader := compileShader gl.vertexLog
  let fragmentShader := compileShader gl.fragmentLog
  let linked : List String :=
    match gl.linkLog with
    | none => []
    | some infoLog => ["Program Linking Error: " ++ infoLog]
  (gl.program, vertexShader ++ fragmentShader ++ linked)

/-- The tile count of one axis, `(imageWidth + tileWidth - 1) / tileWidth`
(lines 116 and 117). -/
def numTiles (imageSize tileSize : Int) : Int :=
  intDiv (imageSize + tileSize - 1) tileSize

/-- The local `lastTileWidth` (and `lastTileHeight`) of `Texture::init`, lines 120 to
131, for one axis. -/
def lastTileSize (imageSize tileSize numTilesAxis : Int) : Int :=
  let last := if intMod imageSize tileSize = 0 then tileSize else intMod imageSize tileSize
  if numTilesAxis * tileSize > imageSize then
    let last := intMod imageSize tileSize
    if last = 0 then tileSize else last
  else last

/-- The method `Texture::init`.  `camera` is the pointer argument, `img` the outcome
of `stbi_load`, `gl` the object names created by the driver. -/
def Texture.init (cfg : TileConfig) (t : Texture) (camera : Nat) (img : StbiLoad)
    (gl : GLObjects) : Texture × InitOutput :=
  let t := { t with m_camera := some camera }
  let t := { t with imageWidth := img.x, imageHeight := img.y }
  if !img.data then
    (t, { cerr := ["Failed to load texture"], printed := [] })
  else
    let t := { t with numTilesX := numTiles t.imageWidth cfg.tileWidth }
    let t := { t with numTilesY := numTiles t.imageHeight cfg.tileHeight }
    let lastTileWidth := lastTileSize t.imageWidth cfg.tileWidth t.numTilesX
    let lastTileHeight := lastTileSize t.imageHeight cfg.tileHeight t.numTilesY
    let printed : List Printed :=
      [ { label := "Image size", fst := t.imageWidth, snd := t.imageHeight },
        { label := "Number of tiles (X x Y)", fst := t.numTilesX, snd := t.numTilesY },
        { label := "Tile size", fst := cfg.tileWidth, snd := cfg.tileHeight },
        { label := "Last row tile size", fst := lastTileWidth, snd := cfg.tileHeight },
        { label := "Last column tile size", fst := cfg.tileWidth, snd := lastTileHeight } ]
    let program := createShaderProgram gl
    let t := { t with shaderProgram := program.1 }
    let t := { t with VAO := gl.vao, VBO := gl.vbo, EBO := gl.ebo }
    let t := { t with textureID := gl.texture }
    let t := { t with modelLoc := gl.modelLoc }
    (t, { cerr := program.2, printed := printed })

/-- The texture object once `init` has run with an image that loaded with size
`w × h`. -/
def Texture.afterInit (cfg : TileConfig) (t : Texture) (camera : Nat) (w h : Int)
    (gl : GLObjects) : Texture :=
  (Texture.init cfg t camera { data := true, x := w, y := h } gl).1

/-! ## `Texture::render` -/

/-- One vertex of the `vertices` array: eight floats, read with the layout that
`glVertexAttribPointer` declares (position, colour, texture coordinate). -/
structure Vertex where
  position : ℚ × ℚ × ℚ
  color : ℚ × ℚ × ℚ
  texCoord : ℚ × ℚ
  deriving DecidableEq

/-- One `glDrawElements` call of `Texture::render`, with the loop counters and locals
of its iteration, the buffer contents, the `model` uniform and the bound objects. -/
structure DrawCall where
  tileX : Int
  tileY : Int
  xOffset : Int
  yOffset : Int
  currentTileWidth : Int
  currentTileHeight : Int
  vertices : List Vertex
  indices : List Nat
  model : Mat4
  shaderProgram : Nat
  VAO : Nat
  textureID : Nat

/-- The body of the inner loop of `Texture::render` (lines 231 to 272) for the
counters `tileX`, `tileY`; `cam` is the camera `m_camera` points to.  The integer
locals are exact; the `float` expressions of the vertex array and of the model
transform are taken as exact rationals, without the rounding of binary32. -/
def Texture.renderTile (cfg : TileConfig) (t : Texture) (cam : Camera)
    (tileX tileY : Int) : DrawCall :=
  let model := cam.getTransform
  let xOffset := tileX * cfg.tileWidth
  let yOffset := tileY * cfg.tileHeight
  let currentTileWidth := min cfg.tileWidth (t.imageWidth - xOffset)
  let currentTileHeight := min cfg.tileHeight (t.imageHeight - yOffset)
  let vertices : List Vertex :=
    [ { position := (0, 0, 0), color := (1, 0, 0),
        texCoord := ((xOffset : ℚ) / t.imageWidth, 1 - (yOffset : ℚ) / t.imageHeight) },
      { position := (0, 1, 0), color := (0, 1, 0),
        texCoord := ((xOffset : ℚ) / t.imageWidth,
          1 - ((yOffset + currentTileHeight : Int) : ℚ) / t.imageHeight) },
      { position := (1, 1, 0), color := (0, 0, 1),
        texCoord := (((xOffset + currentTileWidth : Int) : ℚ) / t.imageWidth,
          1 - ((yOffset + currentTileHeight : Int) : ℚ) / t.imageHeight) },
      { position := (1, 0, 0), color := (1, 1, 1),
        texCoord := (((xOffset + currentTileWidth : Int) : ℚ) / t.imageWidth,
          1 - (yOffset : ℚ) / t.imageHeight) } ]
  let indices : List Nat := [0, 1, 2, 0, 2, 3]
  let model := glmTranslate model
    (2 * (xOffset : ℚ) / (t.imageWidth : ℚ) - 1)
    (2 * (yOffset : ℚ) / (t.imageHeight : ℚ) - 1)
    0
  let model := glmScale model
    (2 * (currentTileWidth : ℚ) / (t.imageWidth : ℚ))
    (2 * (currentTileHeight : ℚ) / (t.imageHeight : ℚ))
    1
  { tileX := tileX, tileY := tileY, xOffset := xOffset, yOffset := yOffset,
    currentTileWidth := currentTileWidth, currentTileHeight := currentTileHeight,
    vertices := vertices, indices := indices, model := model,
    shaderProgram := t.shaderProgram, VAO := t.VAO, textureID := t.textureID }

/-- The method `Texture::render`: the object after the call and the draw calls it
issued, in order. -/
def Texture.render (cfg : TileConfig) (t : Texture) (cam : Camera) :
    Texture × List DrawCall :=
  (t, forLoop t.numTilesY (fun tileY =>
        forLoop t.numTilesX (fun tileX => [t.renderTile cfg cam tileX tileY]) 0) 0)

/-- Whether the pixel `(x, y)` lies in the rectangle
`[xOffset, xOffset + currentTileWidth) × [yOffset, yOffset + currentTileHeight)` of the
tile of a draw call. -/
def DrawCall.covers (d : DrawCall) (x y : Int) : Bool :=
  decide (d.xOffset ≤ x ∧ x < d.xOffset + d.currentTileWidth ∧
    d.yOffset ≤ y ∧ y < d.yOffset + d.currentTileHeight)

/-- The loop counters `(tileX, tileY)` of a draw call. -/
def DrawCall.coords (d : DrawCall) : Int × Int := (d.tileX, d.tileY)

/-- The counters, offsets and size of the tile of a draw call. -/
def DrawCall.geometry (d : DrawCall) : Int × Int × Int × Int × Int × Int :=
  (d.tileX, d.tileY, d.xOffset, d.yOffset, d.currentTileWidth, d.currentTileHeight)

/-- The texture coordinate that the vertex array of a draw call gives to the corner of
the unit quad whose position has `x = px` and `y = py`. -/
def DrawCall.texCoordAt (d : DrawCall) (px py : ℚ) : Option (ℚ × ℚ) :=
  (d.vertices.find? (fun v => decide (v.position.1 = px ∧ v.position.2.1 = py))).map
    (fun v => v.texCoord)

/-- The vertex shader of the three programs: `gl_Position = model * vec4(aPos, 1.0)`. -/
def vertexShader (model : Mat4) (aPos : ℚ × ℚ × ℚ) : Fin 4 → ℚ :=
  Matrix.mulVec model ![aPos.1, aPos.2.1, aPos.2.2, 1]

/-- The left edge `2x/W - 1` of the rectangle of a tile in normalised device
coordinates, for an image of width `W`. -/
def DrawCall.ndcLeft (d : DrawCall) (W : Int) : ℚ := 2 * (d.xOffset : ℚ) / (W : ℚ) - 1

/-- The right edge `2(x + w)/W - 1` of the rectangle of a tile. -/
def DrawCall.ndcRight (d : DrawCall) (W : Int) : ℚ :=
  2 * ((d.xOffset : ℚ) + (d.currentTileWidth : ℚ)) / (W : ℚ) - 1

/-- The edge `2y/H - 1` of the rectangle of a tile, for an image of height `H`. -/
def DrawCall.ndcBottom (d : DrawCall) (H : Int) : ℚ := 2 * (d.yOffset : ℚ) / (H : ℚ) - 1

/-- The edge `2(y + h)/H - 1` of the rectangle of a tile. -/
def DrawCall.ndcTop (d : DrawCall) (H : Int) : ℚ :=
  2 * ((d.yOffset : ℚ) + (d.currentTileHeight : ℚ)) / (H : ℚ) - 1

/-! ## The camera input and `main` of the tiled PNG program -/

/-- The pressed state of the six keys that `Camera::processKeyboardInput` polls. -/
structure Keys where
  w : Bool
  s : Bool
  a : Bool
  d : Bool
  q : Bool
  e : Bool
  deriving DecidableEq, Repr

/-- The method `Camera::processKeyboardInput`, the same in the three programs. -/
def Camera.processKeyboardInput (c : Camera) (k : Keys) : Camera :=
  let cameraSpeed : ℚ := 1 / 100
  let c := if k.w then { c with offset := (c.offset.1, c.offset.2 + cameraSpeed) } else c
  let c := if k.s then { c with offset := (c.offset.1, c.offset.2 - cameraSpeed) } else c
  let c := if k.a then { c with offset := (c.offset.1 - cameraSpeed, c.offset.2) } else c
  let c := if k.d then { c with offset := (c.offset.1 + cameraSpeed, c.offset.2) } else c
  let c := if k.q then { c with scale := c.scale * (101 / 100) } else c
  let c := if k.e then { c with scale := c.scale * (99 / 100) } else c
  c

/-- What the windowing libraries answer during `main`: whether `glfwInit`,
`glfwCreateWindow` and `glewInit` succeed, and the key states of the successive
iterations of the main loop, one for each time `glfwWindowShouldClose` answered
false. -/
structure GlfwEnv where
  glfwInit : Bool
  window : Bool
  glewInit : Bool
  frames : List Keys
  deriving DecidableEq, Repr

/-- The main loop of the tiled PNG program: each iteration polls the keys and calls
`texture.render()`; the result lists the draw calls of each frame. -/
def mainLoop (cfg : TileConfig) (t : Texture) (cam : Camera) :
    List Keys → List (List DrawCall)
  | [] => []
  | k :: ks =>
    let cam := cam.processKeyboardInput k
    let r := t.render cfg cam
    r.2 :: mainLoop cfg r.1 cam ks

/-- The outcome of `main` of the tiled PNG program. -/
structure MainResult where
  exitCode : Int
  cerr : List String
  frames : List (List DrawCall)

/-- The function `main` of `texture_png_tiled0.main.cpp`; `texture` holds the members
of the local `Texture texture` before `init`, and `&camera` is the address 1. -/
def main (cfg : TileConfig) (env : GlfwEnv) (texture : Texture) (img : StbiLoad)
    (gl : GLObjects) : MainResult :=
  if !env.glfwInit then
    { exitCode := -1, cerr := ["Failed to initialize GLFW"], frames := [] }
  else if !env.window then
    { exitCode := -1, cerr := ["Failed to create GLFW window"], frames := [] }
  else if !env.glewInit then
    { exitCode := -1, cerr := ["Failed to initialize GLEW: "], frames := [] }
  else
    let camera := Camera.new
    let r := texture.init cfg 1 img gl
    { exitCode := 0, cerr := r.2.cerr, frames := mainLoop cfg r.1 camera env.frames }

/-! ## The JPEG program -/

/-- One `glDrawElements` call of the single-quad programs, with the `model` uniform,
the location it is stored at and the bound objects. -/
structure QuadDraw where
  model : Mat4
  modelLoc : Int
  shaderProgram : Nat
  VAO : Nat
  textureID : Nat

/-- The arrays that `Texture::init` of the single-quad programs hands to
`glBufferData`. -/
structure Buffers where
  vertices : List Vertex
  indices : List Nat
  deriving DecidableEq

/-- The output of `Texture::init` of the single-quad programs: the lines sent to
`std::cerr` and the uploaded arrays, if any. -/
structure QuadInitOutput where
  cerr : List String
  buffers : Option Buffers
  deriving DecidableEq

/-- The outcome of `main` of the single-quad programs. -/
structure QuadMainResult where
  exitCode : Int
  cerr : List String
  frames : List (List QuadDraw)

namespace Jpg

/-- The data members of `class Texture` of `texture_jpg.main.cpp`. -/
structure Texture where
  shaderProgram : Nat
  modelLoc : Int
  VAO : Nat
  VBO : Nat
  EBO : Nat
  textureID : Nat
  m_camera : Option Nat
  imageWidth : Int
  imageHeight : Int
  deriving DecidableEq, Repr

/-- The local array `vertices` of `Texture::init` (lines 104 to 110). -/
def vertices (aspectRatio : ℚ) : List Vertex :=
  [ { position := (-aspectRatio, -1, 0), color := (1, 0, 0), texCoord := (0, 1) },
    { position := (-aspectRatio, 1, 0), color := (0, 1, 0), texCoord := (0, 0) },
    { position := (aspectRatio, 1, 0), color := (0, 0, 1), texCoord := (1, 0) },
    { position := (aspectRatio, -1, 0), color := (1, 1, 1), texCoord := (1, 1) } ]

/-- The method `Texture::init` of the JPEG program. -/
def Texture.init (t : Texture) (camera : Nat) (img : StbiLoad) (gl : GLObjects) :
    Texture × QuadInitOutput :=
  let t := { t with m_camera := some camera }
  let t := { t with imageWidth := img.x, imageHeight := img.y }
  if !img.data then
    (t, { cerr := ["Failed to load texture"], buffers := none })
  else
    let aspectRatio : ℚ := (t.imageWidth : ℚ) / (t.imageHeight : ℚ)
    let indices : List Nat := [0, 1, 2, 0, 2, 3]
    let program := createShaderProgram gl
    let t := { t with shaderProgram := program.1 }
    let t := { t with VAO := gl.vao, VBO := gl.vbo, EBO := gl.ebo }
    let t := { t with textureID := gl.texture }
    let t := { t with modelLoc := gl.modelLoc }
    (t, { cerr := program.2,
          buffers := some { vertices := vertices aspectRatio, indices := indices } })

/-- The method `Texture::render` of the JPEG program. -/
def Texture.render (t : Texture) (cam : Camera) : Texture × List QuadDraw :=
  let model := cam.getTransform
  (t, [{ model := model, modelLoc := t.modelLoc, shaderProgram := t.shaderProgram,
         VAO := t.VAO, textureID := t.textureID }])

/-- The main loop of the JPEG program. -/
def mainLoop (t : Texture) (cam : Camera) : List Keys → List (List QuadDraw)
  | [] => []
  | k :: ks =>
    let cam := cam.processKeyboardInput k
    let r := t.render cam
    r.2 :: mainLoop r.1 cam ks

/-- The function `main` of `texture_jpg.main.cpp`. -/
def main (env : GlfwEnv) (texture : Texture) (img : StbiLoad) (gl : GLObjects) :
    QuadMainResult :=
  if !env.glfwInit then
    { exitCode := -1, cerr := ["Failed to initialize GLFW"], frames := [] }
  else if !env.window then
    { exitCode := -1, cerr := ["Failed to create GLFW window"], frames := [] }
  else if !env.glewInit then
    { exitCode := -1, cerr := ["Failed to initialize GLEW: "], frames := [] }
  else
    let camera := Camera.new
    let r := texture.init 1 img gl
    { exitCode := 0, cerr := r.2.cerr, frames := mainLoop r.1 camera env.frames }

end Jpg

/-! ## The TIFF program -/

namespace Tif

/-- The data members of `class Texture` of `texture_tif.main.cpp`. -/
structure Texture where
  shaderProgram : Nat
  modelLoc : Int
  VAO : Nat
  VBO : Nat
  EBO : Nat
  textureID : Nat
  m_camera : Option Nat
  imageWidth : Int
  imageHeight : Int
  deriving DecidableEq, Repr

/-- What libtiff and the driver answer during `loadTIFF`: whether `TIFFOpen` returns a
handle, the values that `TIFFGetField` stores in `w` and `h`, whether `_TIFFmalloc`
gives a buffer for a byte count other than 0, whether `TIFFReadRGBAImage` succeeds, and the
texture name from `glGenTextures`. -/
structure TiffEnv where
  opened : Bool
  w : Nat
  h : Nat
  mallocOk : Nat → Bool
  readOk : Bool
  texture : Nat

/-- What `loadTIFF` asked of libtiff: the local `npixels`, the byte count passed to
`_TIFFmalloc`, and the width and height passed to `TIFFReadRGBAImage`, each present when
the statement was reached. -/
structure LoadTrace where
  npixels : Option Nat
  mallocBytes : Option Nat
  readRGBA : Option (Nat × Nat)
  deriving DecidableEq, Repr

/-- The library call `_TIFFmalloc(bytes)`: whether it returns a buffer.  libtiff
answers a request of 0 bytes with `NULL`; for other sizes the allocator decides. -/
def tiffMalloc (env : TiffEnv) (bytes : Nat) : Bool :=
  bytes != 0 && env.mallocOk bytes

/-- The conversion of a `uint32_t` value to `int`. -/
def toInt32 (n : Nat) : Int :=
  if n % 2 ^ 32 < 2 ^ 31 then ((n % 2 ^ 32 : Nat) : Int) else ((n % 2 ^ 32 : Nat) : Int) - 2 ^ 32

/-- The method `Texture::loadTIFF`, called with `&imageWidth` and `&imageHeight`.
`uint32_t` arithmetic is taken modulo `2 ^ 32` and `size_t` arithmetic modulo
`2 ^ 64`; `sizeof(uint32_t)` is 4. -/
def Texture.loadTIFF (t : Texture) (env : TiffEnv) : Bool × Texture × LoadTrace :=
  if !env.opened then
    (false, t, { npixels := none, mallocBytes := none, readRGBA := none })
  else
    let w : Nat := env.w % 2 ^ 32
    let h : Nat := env.h % 2 ^ 32
    let t := { t with imageWidth := toInt32 w }
    let t := { t with imageHeight := toInt32 h }
    let npixels : Nat := (w * h) % 2 ^ 32
    let bytes : Nat := (npixels * 4) % 2 ^ 64
    if !tiffMalloc env bytes then
      (false, t, { npixels := some npixels, mallocBytes := some bytes, readRGBA := none })
    else if env.readOk then
      let t := { t with textureID := env.texture }
      (true, t, { npixels := some npixels, mallocBytes := some bytes, readRGBA := some (w, h) })
    else
      (false, t, { npixels := some npixels, mallocBytes := some bytes, readRGBA := some (w, h) })

/-- The local array `vertices` of `Texture::init` (lines 104 to 110). -/
def vertices (aspectRatio : ℚ) : List Vertex :=
  [ { position := (-aspectRatio, -1, 0), color := (1, 0, 0), texCoord := (0, 1) },
    { position := (-aspectRatio, 1, 0), color := (0, 1, 0), texCoord := (0, 0) },
    { position := (aspectRatio, 1, 0), color := (0, 0, 1), texCoord := (1, 0) },
    { position := (aspectRatio, -1, 0), color := (1, 1, 1), texCoord := (1, 1) } ]

/-- What `compileShader` of the TIFF program writes to `std::cerr` (lines 232 to 235). -/
def compileShader (log : Option String) : List String :=
  match log with
  | none => []
  | some infoLog => ["ERROR::SHADER::COMPILATION_FAILED\n" ++ infoLog]

/-- The function `createShaderProgram` of the TIFF program: the program name and the
lines written to `std::cerr`. -/
def createShaderProgram (gl : GLObjects) : Nat × List String :=
  let vertexShader := compileShader gl.vertexLog
  let fragmentShader := compileShader gl.fragmentLog
  let linked : List String :=
    match gl.linkLog with
    | none => []
    | some infoLog => ["ERROR::SHADER::PROGRAM::LINKING_FAILED\n" ++ infoLog]
  (gl.program, vertexShader ++ fragmentShader ++ linked)

/-- The method `Texture::init` of the TIFF program. -/
def Texture.init (t : Texture) (camera : Nat) (env : TiffEnv) (gl : GLObjects) :
    Texture × QuadInitOutput :=
  let t := { t with m_camera := some camera }
  let r := t.loadTIFF env
  let t := r.2.1
  if !r.1 then
    (t, { cerr := ["Failed to load texture"], buffers := none })
  else
    let aspectRatio : ℚ := (t.imageWidth : ℚ) / (t.imageHeight : ℚ)
    let indices : List Nat := [0, 1, 2, 0, 2, 3]
    let program := createShaderProgram gl
    let t := { t with shaderProgram := program.1 }
    let t := { t with VAO := gl.vao, VBO := gl.vbo, EBO := gl.ebo }
    let t := { t with modelLoc := gl.modelLoc }
    (t, { cerr := program.2,
          buffers := some { vertices := vertices aspectRatio, indices := indices } })

/-- The method `Texture::render` of the TIFF program. -/
def Texture.render (t : Texture) (cam : Camera) : Texture × List QuadDraw :=
  let model := cam.getTransform
  (t, [{ model := model, modelLoc := t.modelLoc, shaderProgram := t.shaderProgram,
         VAO := t.VAO, textureID := t.textureID }])

/-- The main loop of the TIFF program. -/
def mainLoop (t : Texture) (cam : Camera) : List Keys → List (List QuadDraw)
  | [] => []
  | k :: ks =>
    let cam := cam.processKeyboardInput k
    let r := t.render cam
    r.2 :: mainLoop r.1 cam ks

/-- The function `main` of `texture_tif.main.cpp`. -/
def main (env : GlfwEnv) (texture : Texture) (tiff : TiffEnv) (gl : GLObjects) :
    QuadMainResult :=
  if !env.glfwInit then
    { exitCode := -1, cerr := ["Failed to initialize GLFW"], frames := [] }
  else if !env.window then
    { exitCode := -1, cerr := ["Failed to create GLFW window"], frames := [] }
  else if !env.glewInit then
    { exitCode := -1, cerr := ["Failed to initialize GLEW"], frames := [] }
  else
    let camera := Camera.new
    let r := texture.init 1 tiff gl
    { exitCode := 0, cerr := r.2.cerr, frames := mainLoop r.1 camera env.frames }

end Tif

/-! ## binary32 -/

/-- Rounding of a rational to the nearest integer, a tie going to the even one. -/
def roundHalfEven (q : ℚ) : ℤ :=
  let f := ⌊q⌋
  if q - f < 1 / 2 then f
  else if 1 / 2 < q - f then f + 1
  else if f % 2 = 0 then f else f + 1

/-- The binary32 (`float`) value nearest to a rational: round to nearest, ties to even,
with a 24-bit significand and the smallest exponent -126.  Magnitudes from `2 ^ 128` on,
which round to infinity, do not occur in the programs. -/
def binary32 (q : ℚ) : ℚ :=
  if q = 0 then 0
  else
    let e : ℤ := max (Int.log 2 |q|) (-126) - 23
    (roundHalfEven (q / 2 ^ e) : ℚ) * 2 ^ e

/-- The translation of lines 260 to 264 of `Texture::render`,
`(2.0f * xOffset / static_cast<float>(imageWidth)) - 1.0f` and its `y` counterpart,
with the conversions and every operation rounded to binary32. -/
def Texture.tileTranslateF32 (cfg : TileConfig) (t : Texture) (tileX tileY : Int) : ℚ × ℚ :=
  let xOffset := tileX * cfg.tileWidth
  let yOffset := tileY * cfg.tileHeight
  (binary32 (binary32 (binary32 (2 * binary32 (xOffset : ℚ)) / binary32 (t.imageWidth : ℚ)) - 1),
   binary32 (binary32 (binary32 (2 * binary32 (yOffset : ℚ)) / binary32 (t.imageHeight : ℚ)) - 1))

/-- The scaling of lines 265 to 269 of `Texture::render`,
`2.0f * currentTileWidth / static_cast<float>(imageWidth)` and its `y` counterpart, with
the conversions and every operation rounded to binary32. -/
def Texture.tileScaleF32 (cfg : TileConfig) (t : Texture) (tileX tileY : Int) : ℚ × ℚ :=
  let xOffset := tileX * cfg.tileWidth
  let yOffset := tileY * cfg.tileHeight
  let currentTileWidth := min cfg.tileWidth (t.imageWidth - xOffset)
  let currentTileHeight := min cfg.tileHeight (t.imageHeight - yOffset)
  (binary32 (binary32 (2 * binary32 (currentTileWidth : ℚ)) / binary32 (t.imageWidth : ℚ)),
   binary32 (binary32 (2 * binary32 (currentTileHeight : ℚ)) / binary32 (t.imageHeight : ℚ)))

/-- The `model` matrix that lines 260 to 269 build in binary32 when the camera transform
is the identity.  On the identity `glm::translate` and `glm::scale` multiply by 0 and 1
only, which binary32 does without rounding, so the entries are the rounded translation
and scaling themselves. -/
def Texture.tileModelF32 (cfg : TileConfig) (t : Texture) (tileX tileY : Int) : Mat4 :=
  let model : Mat4 := 1
  let model := glmTranslate model (t.tileTranslateF32 cfg tileX tileY).1
    (t.tileTranslateF32 cfg tileX tileY).2 0
  let model := glmScale model (t.tileScaleF32 cfg tileX tileY).1
    (t.tileScaleF32 cfg tileX tileY).2 1
  model

/-! ## The tile contract of the spec -/

/-- A texture object on which `init` has not run yet: `m_camera` is `nullptr`, the
other members hold zeros. -/
def sampleTexture : Texture :=
  { shaderProgram := 0, modelLoc := 0, VAO := 0, VBO := 0, EBO := 0, textureID := 0,
    m_camera := none, imageWidth := 0, imageHeight := 0, numTilesX := 0, numTilesY := 0 }

/-- Object names as a driver hands them out: the first name of each kind. -/
def sampleGL : GLObjects :=
  { program := 1, vao := 1, vbo := 1, ebo := 2, texture := 1, modelLoc := 0 }

/-- The texture object of the sample after `init` loaded a `w × h` image with the
program's tile size. -/
def sampleLoaded (w h : Int) : Texture :=
  sampleTexture.afterInit tileConfig 1 w h sampleGL

/-! ## Arithmetic of the tile count -/

theorem intDiv_eq_ediv {a b : Int} (ha : 0 ≤ a) (hb : 0 ≤ b) : intDiv a b = a / b :=
  Int.tdiv_eq_ediv ha hb

theorem intMod_eq_emod {a b : Int} (ha : 0 ≤ a) (hb : 0 ≤ b) : intMod a b = a % b :=
  Int.tmod_eq_emod ha hb

/-- For a positive image size the count is the Euclidean quotient. -/
theorem numTiles_eq_ediv {w tw : Int} (hw : 0 < w) (htw : 0 < tw) :
    numTiles w tw = (w + tw - 1) / tw := by
  unfold numTiles
  exact intDiv_eq_ediv (by omega) (by omega)

/-- The count `n` of a positive size is the one number with
`(n - 1) * tw < w ≤ n * tw`. -/
theorem numTiles_bounds {w tw : Int} (hw : 0 < w) (htw : 0 < tw) :
    (numTiles w tw - 1) * tw < w ∧ w ≤ numTiles w tw * tw := by
  rw [numTiles_eq_ediv hw htw]
  have h1 := Int.ediv_add_emod (w + tw - 1) tw
  have h2 := Int.emod_nonneg (w + tw - 1) (ne_of_gt htw)
  have h3 := Int.emod_lt_of_pos (w + tw - 1) htw
  constructor <;> nlinarith

theorem numTiles_pos {w tw : Int} (hw : 0 < w) (htw : 0 < tw) : 0 < numTiles w tw := by
  have h := (numTiles_bounds hw htw).2
  by_contra hn
  have : numTiles w tw * tw ≤ 0 := by nlinarith
  omega

/-! ## Loops as ranges -/

theorem forLoop_eq_flatMap {α : Type} (stop : Int) (body : Int → List α) (i : Int) :
    forLoop stop body i
      = (List.range (stop - i).toNat).flatMap (fun k : Nat => body (i + (k : Int))) := by
  generalize hn : (stop - i).toNat = n
  induction n generalizing i with
  | zero =>
    rw [forLoop, if_neg (by omega)]
    rfl
  | succ n ih =>
    rw [forLoop, if_pos (by omega), ih (i + 1) (by omega), List.range_succ_eq_map,
      List.flatMap_cons, List.flatMap_map]
    congr 1
    · simp
    · congr 1
      funext k
      simp only [Function.comp, Nat.succ_eq_add_one, Nat.cast_add, Nat.cast_one]
      congr 1
      ring

theorem flatMap_singleton_eq_map {α β : Type} (l : List α) (f : α → β) :
    l.flatMap (fun a => [f a]) = l.map f := by
  induction l with
  | nil => rfl
  | cons a l ih => simp [List.flatMap_cons, ih]

theorem forLoop_singleton {α : Type} (stop : Int) (f : Int → α) :
    forLoop stop (fun i => [f i]) 0 = (List.range stop.toNat).map (fun k : Nat => f (k : Int)) := by
  rw [forLoop_eq_flatMap]
  simp [flatMap_singleton_eq_map]

theorem render_draws (cfg : TileConfig) (t : Texture) (cam : Camera) :
    (t.render cfg cam).2 = (List.range t.numTilesY.toNat).flatMap (fun r : Nat =>
      (List.range t.numTilesX.toNat).map (fun c : Nat => t.renderTile cfg cam (c : Int) (r : Int))) := by
  unfold Texture.render
  simp only [forLoop_singleton]
  rw [forLoop_eq_flatMap]
  simp

theorem mem_render_draws {cfg : TileConfig} {t : Texture} {cam : Camera} {d : DrawCall} :
    d ∈ (t.render cfg cam).2 ↔ ∃ c r : Int, 0 ≤ c ∧ c < t.numTilesX ∧ 0 ≤ r ∧ r < t.numTilesY ∧
      d = t.renderTile cfg cam c r := by
  rw [render_draws]
  simp only [List.mem_flatMap, List.mem_map, List.mem_range]
  constructor
  · rintro ⟨r, hr, c, hc, rfl⟩
    exact ⟨(c : Int), (r : Int), by omega, by omega, by omega, by omega, rfl⟩
  · rintro ⟨c, r, hc0, hc, hr0, hr, rfl⟩
    refine ⟨r.toNat, by omega, c.toNat, by omega, ?_⟩
    rw [Int.toNat_of_nonneg hc0, Int.toNat_of_nonneg hr0]

/-! ## The state after a successful `init` -/

@[simp] theorem afterInit_imageWidth (cfg : TileConfig) (t : Texture) (camera : Nat)
    (w h : Int) (gl : GLObjects) : (t.afterInit cfg camera w h gl).imageWidth = w := rfl

@[simp] theorem afterInit_imageHeight (cfg : TileConfig) (t : Texture) (camera : Nat)
    (w h : Int) (gl : GLObjects) : (t.afterInit cfg camera w h gl).imageHeight = h := rfl

@[simp] theorem afterInit_numTilesX (cfg : TileConfig) (t : Texture) (camera : Nat)
    (w h : Int) (gl : GLObjects) :
    (t.afterInit cfg camera w h gl).numTilesX = numTiles w cfg.tileWidth := rfl

@[simp] theorem afterInit_numTilesY (cfg : TileConfig) (t : Texture) (camera : Nat)
    (w h : Int) (gl : GLObjects) :
    (t.afterInit cfg camera w h gl).numTilesY = numTiles h cfg.tileHeight := rfl

/-- The count of a positive size is the ceiling of the exact quotient. -/
theorem numTiles_eq_ceil {w tw : Int} (hw : 0 < w) (htw : 0 < tw) :
    numTiles w tw = ⌈(w : ℚ) / (tw : ℚ)⌉ := by
  obtain ⟨h1, h2⟩ := numTiles_bounds hw htw
  have htq : (0 : ℚ) < (tw : ℚ) := by exact_mod_cast htw
  symm
  rw [Int.ceil_eq_iff]
  constructor
  · rw [lt_div_iff₀ htq]
    exact_mod_cast h1
  · rw [div_le_iff₀ htq]
    exact_mod_cast h2

/-- C1: after `Texture::init` has loaded an image of positive width and height,
`numTilesX` is the ceiling of `width / tileWidth` and `numTilesY` the ceiling of
`height / tileHeight`, for every positive tile size and so for 256 x 256; a 600 x 400
image gets 3 columns and 2 rows. -/
theorem init_numTiles_eq_ceil (cfg : TileConfig) (t : Texture) (camera : Nat) (w h : Int)
    (gl : GLObjects) (hw : 0 < w) (hh : 0 < h)
    (htw : 0 < cfg.tileWidth) (hth : 0 < cfg.tileHeight) :
    (Texture.init cfg t camera { data := true, x := w, y := h } gl).1.numTilesX
        = ⌈(w : ℚ) / (cfg.tileWidth : ℚ)⌉ ∧
    (Texture.init cfg t camera { data := true, x := w, y := h } gl).1.numTilesY
        = ⌈(h : ℚ) / (cfg.tileHeight : ℚ)⌉ ∧
    (Texture.init tileConfig t camera { data := true, x := 600, y := 400 } gl).1.numTilesX = 3 ∧
    (Texture.init tileConfig t camera { data := true, x := 600, y := 400 } gl).1.numTilesY = 2 :=
  ⟨numTiles_eq_ceil hw htw, numTiles_eq_ceil hh hth, rfl, rfl⟩

/-- Witness for C1: a 1000 x 257 image with the program's tile size. -/
theorem init_numTiles_eq_ceil_witness :
    (Texture.init tileConfig ⟨0, 0, 0, 0, 0, 0, none, 0, 0, 0, 0⟩ 1
        { data := true, x := 1000, y := 257 } sampleGL).1.numTilesX
        = ⌈((1000 : Int) : ℚ) / (tileConfig.tileWidth : ℚ)⌉ ∧
    (Texture.init tileConfig ⟨0, 0, 0, 0, 0, 0, none, 0, 0, 0, 0⟩ 1
        { data := true, x := 1000, y := 257 } sampleGL).1.numTilesY = 2 :=
  ⟨(init_numTiles_eq_ceil tileConfig ⟨0, 0, 0, 0, 0, 0, none, 0, 0, 0, 0⟩ 1 1000 257
      sampleGL (by decide) (by decide) (by decide) (by decide)).1, by decide⟩

/-! ## The extent of one tile along one axis -/

@[simp] theorem renderTile_tileX (cfg : TileConfig) (t : Texture) (cam : Camera) (c r : Int) :
    (t.renderTile cfg cam c r).tileX = c := rfl

@[simp] theorem renderTile_tileY (cfg : TileConfig) (t : Texture) (cam : Camera) (c r : Int) :
    (t.renderTile cfg cam c r).tileY = r := rfl

@[simp] theorem renderTile_xOffset (cfg : TileConfig) (t : Texture) (cam : Camera)
    (c r : Int) : (t.renderTile cfg cam c r).xOffset = c * cfg.tileWidth := rfl

@[simp] theorem renderTile_yOffset (cfg : TileConfig) (t : Texture) (cam : Camera)
    (c r : Int) : (t.renderTile cfg cam c r).yOffset = r * cfg.tileHeight := rfl

@[simp] theorem renderTile_currentTileWidth (cfg : TileConfig) (t : Texture) (cam : Camera)
    (c r : Int) : (t.renderTile cfg cam c r).currentTileWidth
      = min cfg.tileWidth (t.imageWidth - c * cfg.tileWidth) := rfl

@[simp] theorem renderTile_currentTileHeight (cfg : TileConfig) (t : Texture) (cam : Camera)
    (c r : Int) : (t.renderTile cfg cam c r).currentTileHeight
      = min cfg.tileHeight (t.imageHeight - r * cfg.tileHeight) := rfl

/-- The offset of a tile inside the grid lies strictly inside the image. -/
theorem offset_lt_of_lt_numTiles {w tw c : Int} (hw : 0 < w) (htw : 0 < tw)
    (hc : c < numTiles w tw) : c * tw < w := by
  have h := (numTiles_bounds hw htw).1
  have : c * tw ≤ (numTiles w tw - 1) * tw :=
    mul_le_mul_of_nonneg_right (by omega) (le_of_lt htw)
  omega

theorem extent_pos {w tw c : Int} (hw : 0 < w) (htw : 0 < tw) (hc : c < numTiles w tw) :
    0 < min tw (w - c * tw) := by
  have := offset_lt_of_lt_numTiles hw htw hc
  exact lt_min htw (by omega)

theorem extent_full_of_interior {w tw c : Int} (hw : 0 < w) (htw : 0 < tw)
    (hc : c < numTiles w tw - 1) : min tw (w - c * tw) = tw := by
  have h := offset_lt_of_lt_numTiles (c := c + 1) hw htw (by omega)
  apply min_eq_left
  have : (c + 1) * tw = c * tw + tw := by ring
  omega

theorem extent_full_of_dvd {w tw c : Int} (hw : 0 < w) (htw : 0 < tw)
    (hc : c < numTiles w tw) (hdvd : tw ∣ w) : min tw (w - c * tw) = tw := by
  obtain ⟨k, rfl⟩ := hdvd
  have h := offset_lt_of_lt_numTiles hw htw hc
  have hck : c < k := by
    by_contra hcon
    have : tw * k ≤ c * tw := by
      rw [mul_comm tw k]
      exact mul_le_mul_of_nonneg_right (by omega) (le_of_lt htw)
    omega
  apply min_eq_left
  have : (c + 1) * tw ≤ k * tw := mul_le_mul_of_nonneg_right (by omega) (le_of_lt htw)
  have e1 : (c + 1) * tw = c * tw + tw := by ring
  have e2 : tw * k = k * tw := by ring
  omega

/-- C2: every tile drawn for an image of positive size has its offset at
`(tileX * tileWidth, tileY * tileHeight)` and the size
`(min(tileWidth, width - xOffset), min(tileHeight, height - yOffset))`; a tile left of
the last column is `tileWidth` wide and a tile above the last row `tileHeight` high, so
only the last column and the last row can be smaller; when the tile size divides the
image size every tile is full, and a 512 x 256 image gives two 256 x 256 tiles. -/
theorem render_tile_size (cfg : TileConfig) (t : Texture) (camera : Nat) (w h : Int)
    (gl : GLObjects) (cam : Camera) (hw : 0 < w) (hh : 0 < h)
    (htw : 0 < cfg.tileWidth) (hth : 0 < cfg.tileHeight) (d : DrawCall)
    (hd : d ∈ ((t.afterInit cfg camera w h gl).render cfg cam).2) :
    (d.xOffset = d.tileX * cfg.tileWidth ∧ d.yOffset = d.tileY * cfg.tileHeight) ∧
    (d.currentTileWidth = min cfg.tileWidth (w - d.xOffset) ∧
      d.currentTileHeight = min cfg.tileHeight (h - d.yOffset)) ∧
    (d.tileX < (t.afterInit cfg camera w h gl).numTilesX - 1 →
      d.currentTileWidth = cfg.tileWidth) ∧
    (d.tileY < (t.afterInit cfg camera w h gl).numTilesY - 1 →
      d.currentTileHeight = cfg.tileHeight) ∧
    (d.currentTileWidth < cfg.tileWidth →
      d.tileX = (t.afterInit cfg camera w h gl).numTilesX - 1) ∧
    (d.currentTileHeight < cfg.tileHeight →
      d.tileY = (t.afterInit cfg camera w h gl).numTilesY - 1) ∧
    (cfg.tileWidth ∣ w → d.currentTileWidth = cfg.tileWidth) ∧
    (cfg.tileHeight ∣ h → d.currentTileHeight = cfg.tileHeight) ∧
    ((t.afterInit tileConfig camera 512 256 gl).render tileConfig cam).2.map
        (fun e => (e.tileX, e.tileY, e.currentTileWidth, e.currentTileHeight))
      = [(0, 0, 256, 256), (1, 0, 256, 256)] := by
  obtain ⟨c, r, hc0, hc, hr0, hr, rfl⟩ := mem_render_draws.1 hd
  have hc1 : c < numTiles w cfg.tileWidth := hc
  have hr1 : r < numTiles h cfg.tileHeight := hr
  refine ⟨⟨rfl, rfl⟩, ⟨rfl, rfl⟩, fun hi => extent_full_of_interior hw htw hi,
    fun hi => extent_full_of_interior hh hth hi, fun hs => ?_, fun hs => ?_,
    fun hdvd => extent_full_of_dvd hw htw hc1 hdvd,
    fun hdvd => extent_full_of_dvd hh hth hr1 hdvd, ?_⟩
  · by_contra hne
    have hne1 : c ≠ numTiles w cfg.tileWidth - 1 := hne
    have hs1 : min cfg.tileWidth (w - c * cfg.tileWidth) < cfg.tileWidth := hs
    have := extent_full_of_interior (c := c) hw htw (by omega)
    omega
  · by_contra hne
    have hne1 : r ≠ numTiles h cfg.tileHeight - 1 := hne
    have hs1 : min cfg.tileHeight (h - r * cfg.tileHeight) < cfg.tileHeight := hs
    have := extent_full_of_interior (c := r) hh hth (by omega)
    omega
  · rw [render_draws]
    have hx : numTiles 512 256 = 2 := rfl
    have hy : numTiles 256 256 = 1 := rfl
    simp [hx, hy, List.range_succ, tileConfig]

/-- Witness for C2: the tile at column 2, row 1 of a 600 x 400 image is 88 x 144. -/
theorem render_tile_size_witness :
    (sampleLoaded 600 400).renderTile tileConfig Camera.new 2 1
        ∈ ((sampleLoaded 600 400).render tileConfig Camera.new).2 ∧
    ((sampleLoaded 600 400).renderTile tileConfig Camera.new 2 1).currentTileWidth = 88 ∧
    ((sampleLoaded 600 400).renderTile tileConfig Camera.new 2 1).currentTileHeight = 144 ∧
    ((sampleLoaded 600 400).renderTile tileConfig Camera.new 2 1).currentTileWidth
      = min tileConfig.tileWidth
          (600 - ((sampleLoaded 600 400).renderTile tileConfig Camera.new 2 1).xOffset) :=
  have hmem : (sampleLoaded 600 400).renderTile tileConfig Camera.new 2 1
      ∈ ((sampleLoaded 600 400).render tileConfig Camera.new).2 :=
    mem_render_draws.2 ⟨2, 1, by decide, by decide, by decide, by decide, rfl⟩
  ⟨hmem, by decide, by decide,
    (render_tile_size tileConfig sampleTexture 1 600 400 sampleGL Camera.new (by decide)
      (by decide) (by decide) (by decide) _ hmem).2.1.1⟩

/-- C5: every tile drawn for an image of positive size is non-empty and no larger than
the tile size, `0 < currentTileWidth ≤ tileWidth` and
`0 < currentTileHeight ≤ tileHeight`; a 1 x 1 image gives the single tile of size
`(1, 1)`. -/
theorem render_tile_nonempty_bounded (cfg : TileConfig) (t : Texture) (camera : Nat) (w h : Int)
    (gl : GLObjects) (cam : Camera) (hw : 0 < w) (hh : 0 < h)
    (htw : 0 < cfg.tileWidth) (hth : 0 < cfg.tileHeight) (d : DrawCall)
    (hd : d ∈ ((t.afterInit cfg camera w h gl).render cfg cam).2) :
    (0 < d.currentTileWidth ∧ d.currentTileWidth ≤ cfg.tileWidth) ∧
    (0 < d.currentTileHeight ∧ d.currentTileHeight ≤ cfg.tileHeight) ∧
    ((t.afterInit tileConfig camera 1 1 gl).render tileConfig cam).2.map
        (fun e => (e.tileX, e.tileY, e.currentTileWidth, e.currentTileHeight))
      = [(0, 0, 1, 1)] := by
  obtain ⟨c, r, hc0, hc, hr0, hr, rfl⟩ := mem_render_draws.1 hd
  have hc1 : c < numTiles w cfg.tileWidth := hc
  have hr1 : r < numTiles h cfg.tileHeight := hr
  refine ⟨⟨extent_pos hw htw hc1, min_le_left _ _⟩,
    ⟨extent_pos hh hth hr1, min_le_left _ _⟩, ?_⟩
  rw [render_draws]
  have hx : numTiles 1 256 = 1 := rfl
  simp [hx, List.range_succ, tileConfig]

/-- Witness for C5: the tile at column 2, row 0 of a 600 x 400 image. -/
theorem render_tile_nonempty_bounded_witness :
    (sampleLoaded 600 400).renderTile tileConfig Camera.new 2 0
        ∈ ((sampleLoaded 600 400).render tileConfig Camera.new).2 ∧
    (0 < ((sampleLoaded 600 400).renderTile tileConfig Camera.new 2 0).currentTileWidth ∧
      ((sampleLoaded 600 400).renderTile tileConfig Camera.new 2 0).currentTileWidth
        ≤ tileConfig.tileWidth) :=
  have hmem : (sampleLoaded 600 400).renderTile tileConfig Camera.new 2 0
      ∈ ((sampleLoaded 600 400).render tileConfig Camera.new).2 :=
    mem_render_draws.2 ⟨2, 0, by decide, by decide, by decide, by decide, rfl⟩
  ⟨hmem, (render_tile_nonempty_bounded tileConfig sampleTexture 1 600 400 sampleGL Camera.new
    (by decide) (by decide) (by decide) (by decide) _ hmem).1⟩

/-! ## Selecting from a list built over a range -/

theorem filter_map_range_unique {α : Type} (p : α → Bool) (g : ℕ → α) (n k0 : ℕ)
    (hk : k0 < n) (h : ∀ k < n, (p (g k) = true ↔ k = k0)) :
    ((List.range n).map g).filter p = [g k0] := by
  induction n with
  | zero => omega
  | succ n ih =>
    rw [List.range_succ, List.map_append, List.filter_append]
    by_cases hkn : k0 = n
    · subst hkn
      have h1 : ((List.range k0).map g).filter p = [] := by
        rw [List.filter_eq_nil_iff]
        intro a ha
        obtain ⟨k, hk1, rfl⟩ := List.mem_map.1 ha
        have hk2 := List.mem_range.1 hk1
        intro hp
        have := (h k (by omega)).1 hp
        omega
      have h2 : p (g k0) = true := (h k0 (by omega)).2 rfl
      simp [h1, h2]
    · have h1 := ih (by omega) (fun k hk1 => h k (by omega))
      have h2 : ¬ p (g n) = true := fun hp => hkn ((h n (by omega)).1 hp).symm
      simp [h1, h2]

theorem filter_flatMap_range_unique {α : Type} (p : α → Bool) (f : ℕ → List α) (n k0 : ℕ)
    (hk : k0 < n) (h : ∀ k < n, k ≠ k0 → (f k).filter p = []) :
    ((List.range n).flatMap f).filter p = (f k0).filter p := by
  induction n with
  | zero => omega
  | succ n ih =>
    rw [List.range_succ, List.flatMap_append, List.filter_append, List.flatMap_singleton]
    by_cases hkn : k0 = n
    · subst hkn
      have h1 : ((List.range k0).flatMap f).filter p = [] := by
        rw [List.filter_flatMap, List.flatMap_eq_nil_iff]
        intro k hk1
        have hk2 := List.mem_range.1 hk1
        exact h k (by omega) (by omega)
      simp [h1]
    · rw [ih (by omega) (fun k hk1 hne => h k (by omega) hne), h n (by omega) (Ne.symm hkn)]
      simp

/-! ## The pixel rectangles -/

/-- Along one axis, for a pixel inside the image, the tile at index `k` contains the
pixel exactly when `k` is the quotient of the pixel coordinate by the tile size. -/
theorem axis_covers_iff {w tw x k : Int} (htw : 0 < tw) (hx : x < w) :
    (k * tw ≤ x ∧ x < k * tw + min tw (w - k * tw)) ↔ k = x / tw := by
  constructor
  · rintro ⟨h1, h2⟩
    have h3 : x < (k + 1) * tw := by
      have := min_le_left tw (w - k * tw)
      have e : (k + 1) * tw = k * tw + tw := by ring
      omega
    have a : k ≤ x / tw := (Int.le_ediv_iff_mul_le htw).2 h1
    have b : x / tw < k + 1 := (Int.ediv_lt_iff_lt_mul htw).2 h3
    omega
  · rintro rfl
    have h1 : x / tw * tw ≤ x := Int.ediv_mul_le x (ne_of_gt htw)
    have h2 : x < (x / tw + 1) * tw := Int.lt_ediv_add_one_mul_self x htw
    have e : (x / tw + 1) * tw = x / tw * tw + tw := by ring
    refine ⟨h1, ?_⟩
    rcases min_choice tw (w - x / tw * tw) with h | h <;> rw [h] <;> omega

/-- The quotient index of a pixel inside the image is a tile index of the grid. -/
theorem ediv_lt_numTiles {w tw x : Int} (hw : 0 < w) (htw : 0 < tw) (hx : x < w) :
    x / tw < numTiles w tw := by
  have h1 : x / tw * tw ≤ x := Int.ediv_mul_le x (ne_of_gt htw)
  have h2 := (numTiles_bounds hw htw).2
  by_contra hcon
  have : numTiles w tw * tw ≤ x / tw * tw :=
    mul_le_mul_of_nonneg_right (by omega) (le_of_lt htw)
  omega

theorem renderTile_covers_iff (cfg : TileConfig) (t : Texture) (cam : Camera)
    (c r x y : Int) (htw : 0 < cfg.tileWidth) (hth : 0 < cfg.tileHeight)
    (hx : x < t.imageWidth) (hy : y < t.imageHeight) :
    (t.renderTile cfg cam c r).covers x y = true
      ↔ c = x / cfg.tileWidth ∧ r = y / cfg.tileHeight := by
  simp only [DrawCall.covers, renderTile_xOffset, renderTile_yOffset,
    renderTile_currentTileWidth, renderTile_currentTileHeight, decide_eq_true_eq]
  rw [← axis_covers_iff htw hx, ← axis_covers_iff hth hy]
  tauto

/-- A rectangle of a tile of the grid stays inside the image. -/
theorem renderTile_covers_inside (cfg : TileConfig) (t : Texture) (cam : Camera)
    (c r x y : Int) (htw : 0 < cfg.tileWidth) (hth : 0 < cfg.tileHeight)
    (hc : 0 ≤ c) (hr : 0 ≤ r) (hcov : (t.renderTile cfg cam c r).covers x y = true) :
    0 ≤ x ∧ x < t.imageWidth ∧ 0 ≤ y ∧ y < t.imageHeight := by
  simp only [DrawCall.covers, renderTile_xOffset, renderTile_yOffset,
    renderTile_currentTileWidth, renderTile_currentTileHeight, decide_eq_true_eq] at hcov
  obtain ⟨h1, h2, h3, h4⟩ := hcov
  have a := min_le_right cfg.tileWidth (t.imageWidth - c * cfg.tileWidth)
  have b := min_le_right cfg.tileHeight (t.imageHeight - r * cfg.tileHeight)
  have hc1 : 0 ≤ c * cfg.tileWidth := mul_nonneg hc (le_of_lt htw)
  have hr1 : 0 ≤ r * cfg.tileHeight := mul_nonneg hr (le_of_lt hth)
  omega

/-- For a pixel of the image, the draw calls whose rectangle contains it are the single
call of the tile at the quotient indices. -/
theorem render_filter_covers (cfg : TileConfig) (t : Texture) (cam : Camera) (x y : Int)
    (htw : 0 < cfg.tileWidth) (hth : 0 < cfg.tileHeight)
    (hx0 : 0 ≤ x) (hx : x < t.imageWidth) (hy0 : 0 ≤ y) (hy : y < t.imageHeight)
    (hX : t.numTilesX = numTiles t.imageWidth cfg.tileWidth)
    (hY : t.numTilesY = numTiles t.imageHeight cfg.tileHeight) :
    (t.render cfg cam).2.filter (fun d => d.covers x y)
      = [t.renderTile cfg cam (x / cfg.tileWidth) (y / cfg.tileHeight)] := by
  have hc0 : 0 ≤ x / cfg.tileWidth := Int.ediv_nonneg hx0 (le_of_lt htw)
  have hr0 : 0 ≤ y / cfg.tileHeight := Int.ediv_nonneg hy0 (le_of_lt hth)
  have hc : x / cfg.tileWidth < t.numTilesX := by
    rw [hX]; exact ediv_lt_numTiles (by omega) htw hx
  have hr : y / cfg.tileHeight < t.numTilesY := by
    rw [hY]; exact ediv_lt_numTiles (by omega) hth hy
  rw [render_draws,
    filter_flatMap_range_unique _ _ _ (y / cfg.tileHeight).toNat (by omega),
    filter_map_range_unique _ _ _ (x / cfg.tileWidth).toNat (by omega)]
  · rw [Int.toNat_of_nonneg hc0, Int.toNat_of_nonneg hr0]
  · intro k _
    rw [renderTile_covers_iff cfg t cam _ _ x y htw hth hx hy]
    rw [Int.toNat_of_nonneg hr0]
    constructor
    · rintro ⟨h1, _⟩
      omega
    · intro h1
      subst h1
      exact ⟨by rw [Int.toNat_of_nonneg hc0], rfl⟩
  · intro k _ hne
    rw [List.filter_eq_nil_iff]
    intro d hd
    obtain ⟨c, _, rfl⟩ := List.mem_map.1 hd
    rw [renderTile_covers_iff cfg t cam _ _ x y htw hth hx hy]
    rintro ⟨_, h2⟩
    omega

/-- C3: the pixel rectangles of the tiles that `Texture::render` draws partition the
image, whatever its size and so for every positive width and height: every pixel
`(x, y)` with `0 ≤ x < width` and `0 ≤ y < height` lies in the rectangle of exactly one
draw call (no gap, no overlap), and every pixel of a rectangle is a pixel of the
image. -/
theorem render_rectangles_partition (cfg : TileConfig) (t : Texture) (camera : Nat)
    (w h : Int) (gl : GLObjects) (cam : Camera)
    (htw : 0 < cfg.tileWidth) (hth : 0 < cfg.tileHeight) :
    (∀ x y : Int, 0 ≤ x → x < w → 0 ≤ y → y < h →
      ((t.afterInit cfg camera w h gl).render cfg cam).2.countP (fun d => d.covers x y) = 1) ∧
    (∀ d ∈ ((t.afterInit cfg camera w h gl).render cfg cam).2, ∀ x y : Int,
      d.covers x y = true → 0 ≤ x ∧ x < w ∧ 0 ≤ y ∧ y < h) := by
  constructor
  · intro x y hx0 hx hy0 hy
    rw [List.countP_eq_length_filter,
      render_filter_covers cfg _ cam x y htw hth hx0 hx hy0 hy rfl rfl]
    rfl
  · intro d hd x y hcov
    obtain ⟨c, r, hc0, _, hr0, _, rfl⟩ := mem_render_draws.1 hd
    exact renderTile_covers_inside cfg _ cam c r x y htw hth hc0 hr0 hcov

/-- Witness for C3: the pixel `(599, 256)` of a 600 x 400 image. -/
theorem render_rectangles_partition_witness :
    ((sampleLoaded 600 400).render tileConfig Camera.new).2.countP
        (fun d => d.covers 599 256) = 1 :=
  (render_rectangles_partition tileConfig sampleTexture 1 600 400 sampleGL Camera.new
    (by decide) (by decide)).1 599 256 (by decide) (by decide)
    (by decide) (by decide)

/-! ## Sums along a row and a column -/

/-- The extents of the first `m` tiles of an axis add up to `m * tw`, cut at the image
size. -/
theorem sum_extent_range {w tw : Int} (hw : 0 < w) (htw : 0 < tw) (m : ℕ)
    (hm : (m : Int) ≤ numTiles w tw) :
    ((List.range m).map (fun k : ℕ => min tw (w - (k : Int) * tw))).sum
      = min ((m : Int) * tw) w := by
  induction m with
  | zero => simp [le_of_lt hw]
  | succ m ih =>
    have hlt : (m : Int) * tw < w := offset_lt_of_lt_numTiles hw htw (by push_cast at hm; omega)
    rw [List.sum_range_succ, ih (by push_cast at hm; omega), min_eq_left (le_of_lt hlt)]
    have e : ((m + 1 : ℕ) : Int) * tw = (m : Int) * tw + tw := by push_cast; ring
    rw [e]
    rcases le_total tw (w - (m : Int) * tw) with h | h
    · rw [min_eq_left h, min_eq_left (by omega)]
    · rw [min_eq_right h, min_eq_right (by omega)]
      omega

theorem sum_extent {w tw : Int} (hw : 0 < w) (htw : 0 < tw) :
    ((List.range (numTiles w tw).toNat).map
      (fun k : ℕ => min tw (w - (k : Int) * tw))).sum = w := by
  have hpos := numTiles_pos hw htw
  rw [sum_extent_range hw htw _ (by omega), Int.toNat_of_nonneg (le_of_lt hpos)]
  exact min_eq_right (numTiles_bounds hw htw).2

/-- The draw calls of row `r`, in order. -/
theorem render_filter_row (cfg : TileConfig) (t : Texture) (cam : Camera) (r : Int)
    (hr0 : 0 ≤ r) (hr : r < t.numTilesY) :
    (t.render cfg cam).2.filter (fun d => decide (d.tileY = r))
      = (List.range t.numTilesX.toNat).map (fun c : ℕ => t.renderTile cfg cam (c : Int) r) := by
  rw [render_draws, filter_flatMap_range_unique _ _ _ r.toNat (by omega)]
  · rw [Int.toNat_of_nonneg hr0, List.filter_eq_self]
    intro d hd
    obtain ⟨c, _, rfl⟩ := List.mem_map.1 hd
    simp
  · intro k _ hne
    rw [List.filter_eq_nil_iff]
    intro d hd
    obtain ⟨c, _, rfl⟩ := List.mem_map.1 hd
    simp only [renderTile_tileY, decide_eq_true_eq]
    omega

/-- The draw calls of column `c`, in order. -/
theorem render_filter_column (cfg : TileConfig) (t : Texture) (cam : Camera) (c : Int)
    (hc0 : 0 ≤ c) (hc : c < t.numTilesX) :
    (t.render cfg cam).2.filter (fun d => decide (d.tileX = c))
      = (List.range t.numTilesY.toNat).map (fun r : ℕ => t.renderTile cfg cam c (r : Int)) := by
  rw [render_draws, List.filter_flatMap, ← flatMap_singleton_eq_map]
  congr 1
  funext r
  rw [filter_map_range_unique _ _ _ c.toNat (by omega), Int.toNat_of_nonneg hc0]
  intro k _
  simp only [renderTile_tileX, decide_eq_true_eq]
  omega

/-- C4: for an image of positive size and a positive tile size, the widths
`currentTileWidth` of the tiles drawn in any one row add up to `imageWidth`, and the
heights `currentTileHeight` of the tiles drawn in any one column add up to
`imageHeight`. -/
theorem render_row_column_sums (cfg : TileConfig) (t : Texture) (camera : Nat)
    (w h : Int) (gl : GLObjects) (cam : Camera) (hw : 0 < w) (hh : 0 < h)
    (htw : 0 < cfg.tileWidth) (hth : 0 < cfg.tileHeight) :
    (∀ r : Int, 0 ≤ r → r < (t.afterInit cfg camera w h gl).numTilesY →
      ((((t.afterInit cfg camera w h gl).render cfg cam).2.filter
        (fun d => decide (d.tileY = r))).map (fun d => d.currentTileWidth)).sum = w) ∧
    (∀ c : Int, 0 ≤ c → c < (t.afterInit cfg camera w h gl).numTilesX →
      ((((t.afterInit cfg camera w h gl).render cfg cam).2.filter
        (fun d => decide (d.tileX = c))).map (fun d => d.currentTileHeight)).sum = h) := by
  constructor
  · intro r hr0 hr
    rw [render_filter_row cfg _ cam r hr0 hr, List.map_map]
    exact sum_extent hw htw
  · intro c hc0 hc
    rw [render_filter_column cfg _ cam c hc0 hc, List.map_map]
    exact sum_extent hh hth

/-- Witness for C4: row 1 and column 2 of a 600 x 400 image. -/
theorem render_row_column_sums_witness :
    ((((sampleLoaded 600 400).render tileConfig Camera.new).2.filter
        (fun d => decide (d.tileY = 1))).map (fun d => d.currentTileWidth)).sum = 600 ∧
    ((((sampleLoaded 600 400).render tileConfig Camera.new).2.filter
        (fun d => decide (d.tileX = 2))).map (fun d => d.currentTileHeight)).sum = 400 :=
  ⟨(render_row_column_sums tileConfig sampleTexture 1 600 400 sampleGL Camera.new
      (by decide) (by decide) (by decide) (by decide)).1 1 (by decide) (by decide),
    (render_row_column_sums tileConfig sampleTexture 1 600 400 sampleGL Camera.new
      (by decide) (by decide) (by decide) (by decide)).2 2 (by decide) (by decide)⟩

/-! ## The order of the draw calls -/

/-- A list built row by row over a grid of `nx` columns and `ny` rows is the list
indexed by `k < nx * ny` with column `k % nx` and row `k / nx`. -/
theorem flatMap_range_eq_map_range {α : Type} (g : ℕ → ℕ → α) (nx ny : ℕ) :
    (List.range ny).flatMap (fun r : ℕ => (List.range nx).map (fun c : ℕ => g c r))
      = (List.range (nx * ny)).map (fun k : ℕ => g (k % nx) (k / nx)) := by
  induction ny with
  | zero => simp
  | succ ny ih =>
    rw [List.range_succ, List.flatMap_append, List.flatMap_singleton, ih, Nat.mul_succ,
      List.range_add, List.map_append, List.map_map]
    congr 1
    apply List.map_congr_left
    intro c hc
    have hc1 := List.mem_range.1 hc
    have hnx : 0 < nx := by omega
    simp only [Function.comp]
    rw [Nat.mul_add_mod, Nat.mod_eq_of_lt hc1, Nat.mul_add_div hnx, Nat.div_eq_of_lt hc1,
      Nat.add_zero]

theorem render_coords (cfg : TileConfig) (t : Texture) (cam : Camera)
    (hx : 0 ≤ t.numTilesX) (hy : 0 ≤ t.numTilesY) :
    (t.render cfg cam).2.map DrawCall.coords
      = (List.range (t.numTilesX * t.numTilesY).toNat).map
          (fun k : ℕ => ((k : Int) % t.numTilesX, (k : Int) / t.numTilesX)) := by
  have e : (t.numTilesX * t.numTilesY).toNat = t.numTilesX.toNat * t.numTilesY.toNat := by
    apply Int.ofNat.inj
    simp only [Int.ofNat_eq_coe]
    rw [Int.toNat_of_nonneg (mul_nonneg hx hy)]
    push_cast
    rw [Int.toNat_of_nonneg hx, Int.toNat_of_nonneg hy]
  rw [render_draws, flatMap_range_eq_map_range, List.map_map, e]
  apply List.map_congr_left
  intro k _
  simp only [Function.comp, DrawCall.coords, renderTile_tileX, renderTile_tileY]
  push_cast
  rw [Int.toNat_of_nonneg hx]

/-- The draw calls with the counters `(c, r)` of a tile of the grid are a single call. -/
theorem render_filter_coords (cfg : TileConfig) (t : Texture) (cam : Camera) (c r : Int)
    (hc0 : 0 ≤ c) (hc : c < t.numTilesX) (hr0 : 0 ≤ r) (hr : r < t.numTilesY) :
    (t.render cfg cam).2.filter (fun d => decide (d.coords = (c, r)))
      = [t.renderTile cfg cam c r] := by
  rw [render_draws, filter_flatMap_range_unique _ _ _ r.toNat (by omega),
    filter_map_range_unique _ _ _ c.toNat (by omega)]
  · rw [Int.toNat_of_nonneg hc0, Int.toNat_of_nonneg hr0]
  · intro k _
    simp only [DrawCall.coords, renderTile_tileX, renderTile_tileY, decide_eq_true_eq,
      Prod.mk.injEq]
    omega
  · intro k _ hne
    rw [List.filter_eq_nil_iff]
    intro d hd
    obtain ⟨c1, _, rfl⟩ := List.mem_map.1 hd
    simp only [DrawCall.coords, renderTile_tileX, renderTile_tileY, decide_eq_true_eq,
      Prod.mk.injEq]
    omega

/-- The tile geometry of the draw calls is a function of the stored image size, the
stored tile counts and the tile size alone. -/
theorem render_geometry (cfg : TileConfig) (t : Texture) (cam : Camera) :
    (t.render cfg cam).2.map DrawCall.geometry
      = (List.range t.numTilesY.toNat).flatMap (fun r : ℕ =>
          (List.range t.numTilesX.toNat).map (fun c : ℕ =>
            ((c : Int), (r : Int), (c : Int) * cfg.tileWidth, (r : Int) * cfg.tileHeight,
              min cfg.tileWidth (t.imageWidth - (c : Int) * cfg.tileWidth),
              min cfg.tileHeight (t.imageHeight - (r : Int) * cfg.tileHeight)))) := by
  rw [render_draws, List.map_flatMap]
  congr 1
  funext r
  rw [List.map_map]
  rfl

/-- C6: one call of `Texture::render` on a grid of `numTilesX` columns and `numTilesY`
rows draws the tiles in row-major order: the `k`-th draw call has
`tileX = k mod numTilesX` and `tileY = k div numTilesX`, there are
`numTilesX * numTilesY` draw calls, every pair of the grid is drawn exactly once and no
other pair is drawn; the call leaves the object unchanged, a second call draws the same
tiles whatever the camera does in between, and after `init` the sequence of tiles is
the same for every object that loaded an image of the same size with the same tile
size. -/
theorem render_row_major (cfg : TileConfig) (t : Texture) (cam : Camera)
    (hx : 0 ≤ t.numTilesX) (hy : 0 ≤ t.numTilesY) :
    (t.render cfg cam).2.map DrawCall.coords
      = (List.range (t.numTilesX * t.numTilesY).toNat).map
          (fun k : ℕ => ((k : Int) % t.numTilesX, (k : Int) / t.numTilesX)) ∧
    ((t.render cfg cam).2.length : Int) = t.numTilesX * t.numTilesY ∧
    (∀ c r : Int, 0 ≤ c → c < t.numTilesX → 0 ≤ r → r < t.numTilesY →
      ((t.render cfg cam).2.map DrawCall.coords).count (c, r) = 1) ∧
    (∀ d ∈ (t.render cfg cam).2,
      0 ≤ d.tileX ∧ d.tileX < t.numTilesX ∧ 0 ≤ d.tileY ∧ d.tileY < t.numTilesY) ∧
    (t.render cfg cam).1 = t ∧
    (∀ cam2 : Camera, ((t.render cfg cam).1.render cfg cam2).2.map DrawCall.geometry
      = (t.render cfg cam).2.map DrawCall.geometry) ∧
    (∀ (t1 t2 : Texture) (camera1 camera2 : Nat) (w h : Int) (gl1 gl2 : GLObjects)
      (cam1 cam2 : Camera),
      ((t1.afterInit cfg camera1 w h gl1).render cfg cam1).2.map DrawCall.geometry
        = ((t2.afterInit cfg camera2 w h gl2).render cfg cam2).2.map DrawCall.geometry) := by
  have hcoords := render_coords cfg t cam hx hy
  refine ⟨hcoords, ?_, ?_, ?_, rfl, ?_, ?_⟩
  · have hlen := congrArg List.length hcoords
    rw [List.length_map, List.length_map, List.length_range] at hlen
    rw [hlen, Int.toNat_of_nonneg (mul_nonneg hx hy)]
  · intro c r hc0 hc hr0 hr
    rw [List.count_eq_countP, List.countP_map, List.countP_eq_length_filter]
    have hf : (t.render cfg cam).2.filter ((fun p => p == (c, r)) ∘ DrawCall.coords)
        = (t.render cfg cam).2.filter (fun d => decide (d.coords = (c, r))) := by
      congr 1
      funext d
      simp only [Function.comp]
      by_cases hd : d.coords = (c, r)
      · simp [hd]
      · simp [hd]
    rw [hf, render_filter_coords cfg t cam c r hc0 hc hr0 hr]
    rfl
  · intro d hd
    obtain ⟨c, r, hc0, hc, hr0, hr, rfl⟩ := mem_render_draws.1 hd
    exact ⟨hc0, hc, hr0, hr⟩
  · intro cam2
    rw [render_geometry, render_geometry]
    rfl
  · intro t1 t2 camera1 camera2 w h gl1 gl2 cam1 cam2
    rw [render_geometry, render_geometry]
    rfl

/-- Witness for C6: the six draw calls of a 600 x 400 image. -/
theorem render_row_major_witness :
    ((sampleLoaded 600 400).render tileConfig Camera.new).2.map DrawCall.coords
      = [(0, 0), (1, 0), (2, 0), (0, 1), (1, 1), (2, 1)] ∧
    ((((sampleLoaded 600 400).render tileConfig Camera.new).2.length : Nat) : Int) = 3 * 2 :=
  have h := render_row_major tileConfig (sampleLoaded 600 400) Camera.new
    (by decide) (by decide)
  ⟨h.1.trans (by decide), h.2.1⟩

/-! ## Texture coordinates -/

theorem renderTile_texCoordAt_00 (cfg : TileConfig) (t : Texture) (cam : Camera)
    (c r : Int) : (t.renderTile cfg cam c r).texCoordAt 0 0
      = some (((c * cfg.tileWidth : Int) : ℚ) / t.imageWidth,
          1 - ((r * cfg.tileHeight : Int) : ℚ) / t.imageHeight) := by
  simp [DrawCall.texCoordAt, Texture.renderTile]

theorem renderTile_texCoordAt_01 (cfg : TileConfig) (t : Texture) (cam : Camera)
    (c r : Int) : (t.renderTile cfg cam c r).texCoordAt 0 1
      = some (((c * cfg.tileWidth : Int) : ℚ) / t.imageWidth,
          1 - ((r * cfg.tileHeight
            + min cfg.tileHeight (t.imageHeight - r * cfg.tileHeight) : Int) : ℚ)
              / t.imageHeight) := by
  simp [DrawCall.texCoordAt, Texture.renderTile]

theorem renderTile_texCoordAt_11 (cfg : TileConfig) (t : Texture) (cam : Camera)
    (c r : Int) : (t.renderTile cfg cam c r).texCoordAt 1 1
      = some (((c * cfg.tileWidth
            + min cfg.tileWidth (t.imageWidth - c * cfg.tileWidth) : Int) : ℚ)
              / t.imageWidth,
          1 - ((r * cfg.tileHeight
            + min cfg.tileHeight (t.imageHeight - r * cfg.tileHeight) : Int) : ℚ)
              / t.imageHeight) := by
  simp [DrawCall.texCoordAt, Texture.renderTile]

theorem renderTile_texCoordAt_10 (cfg : TileConfig) (t : Texture) (cam : Camera)
    (c r : Int) : (t.renderTile cfg cam c r).texCoordAt 1 0
      = some (((c * cfg.tileWidth
            + min cfg.tileWidth (t.imageWidth - c * cfg.tileWidth) : Int) : ℚ)
              / t.imageWidth,
          1 - ((r * cfg.tileHeight : Int) : ℚ) / t.imageHeight) := by
  simp [DrawCall.texCoordAt, Texture.renderTile]

/-- Counterexample to C7 as stated: in a 600 x 400 image the tile at column 1, row 1 has
offset `(256, 256)`; its quad corner `(0, 0)` gets the texture coordinate
`(32/75, 9/25)`, that is `(x / W, 1 - y / H)`, and not `(x / W, y / H) = (32/75, 16/25)`. -/
theorem render_texCoord_counterexample :
    (sampleLoaded 600 400).renderTile tileConfig Camera.new 1 1
        ∈ ((sampleLoaded 600 400).render tileConfig Camera.new).2 ∧
    ((sampleLoaded 600 400).renderTile tileConfig Camera.new 1 1).texCoordAt 0 0
        = some (32 / 75, 9 / 25) ∧
    ((sampleLoaded 600 400).renderTile tileConfig Camera.new 1 1).texCoordAt 0 0
        ≠ some
          ((((sampleLoaded 600 400).renderTile tileConfig Camera.new 1 1).xOffset : ℚ) / 600,
            (((sampleLoaded 600 400).renderTile tileConfig Camera.new 1 1).yOffset : ℚ) / 400) := by
  refine ⟨mem_render_draws.2 ⟨1, 1, by decide, by decide, by decide, by decide, rfl⟩, ?_, ?_⟩
  · rw [renderTile_texCoordAt_00]
    simp only [sampleLoaded, afterInit_imageWidth, afterInit_imageHeight, tileConfig]
    norm_num
  · rw [renderTile_texCoordAt_00]
    simp only [sampleLoaded, afterInit_imageWidth, afterInit_imageHeight, tileConfig,
      renderTile_xOffset, renderTile_yOffset]
    norm_num

/-- C7, amended: for every tile drawn by `Texture::render`, with pixel offset `(x, y)`
and pixel size `(w, h)` in an image of size `(W, H)`, the texture coordinates of the
quad run from `(x / W, 1 - y / H)` at the corner `(0, 0)` to
`((x + w) / W, 1 - (y + h) / H)` at the corner `(1, 1)`, with
`(x / W, 1 - (y + h) / H)` at `(0, 1)` and `((x + w) / W, 1 - y / H)` at `(1, 0)`: the
U coordinate is the one stated, the V coordinate is flipped. -/
theorem render_texCoord_rect (cfg : TileConfig) (t : Texture) (camera : Nat) (w h : Int)
    (gl : GLObjects) (cam : Camera) (d : DrawCall)
    (hd : d ∈ ((t.afterInit cfg camera w h gl).render cfg cam).2) :
    d.texCoordAt 0 0 = some ((d.xOffset : ℚ) / w, 1 - (d.yOffset : ℚ) / h) ∧
    d.texCoordAt 1 1 = some (((d.xOffset : ℚ) + d.currentTileWidth) / w,
      1 - ((d.yOffset : ℚ) + d.currentTileHeight) / h) ∧
    d.texCoordAt 0 1 = some ((d.xOffset : ℚ) / w,
      1 - ((d.yOffset : ℚ) + d.currentTileHeight) / h) ∧
    d.texCoordAt 1 0 = some (((d.xOffset : ℚ) + d.currentTileWidth) / w,
      1 - (d.yOffset : ℚ) / h) := by
  obtain ⟨c, r, _, _, _, _, rfl⟩ := mem_render_draws.1 hd
  rw [renderTile_texCoordAt_00, renderTile_texCoordAt_11, renderTile_texCoordAt_01,
    renderTile_texCoordAt_10]
  simp only [renderTile_xOffset, renderTile_yOffset, renderTile_currentTileWidth,
    renderTile_currentTileHeight, afterInit_imageWidth, afterInit_imageHeight,
    Int.cast_add, and_self]

/-- Witness for C7, amended: the tile at column 2, row 1 of a 600 x 400 image. -/
theorem render_texCoord_rect_witness :
    (sampleLoaded 600 400).renderTile tileConfig Camera.new 2 1
        ∈ ((sampleLoaded 600 400).render tileConfig Camera.new).2 ∧
    ((sampleLoaded 600 400).renderTile tileConfig Camera.new 2 1).texCoordAt 0 0
      = some
          ((((sampleLoaded 600 400).renderTile tileConfig Camera.new 2 1).xOffset : ℚ)
              / ((600 : Int) : ℚ),
            1 - (((sampleLoaded 600 400).renderTile tileConfig Camera.new 2 1).yOffset : ℚ)
              / ((400 : Int) : ℚ)) :=
  have hmem : (sampleLoaded 600 400).renderTile tileConfig Camera.new 2 1
      ∈ ((sampleLoaded 600 400).render tileConfig Camera.new).2 :=
    mem_render_draws.2 ⟨2, 1, by decide, by decide, by decide, by decide, rfl⟩
  ⟨hmem, (render_texCoord_rect tileConfig sampleTexture 1 600 400 sampleGL Camera.new _
    hmem).1⟩

/-- C8: for every tile drawn for an image of positive size, the texture-coordinate
rectangle written in the vertex array has the two left corners at one U and the two
right corners at another, the corners `(0, 0)`, `(1, 0)` at one V and `(0, 1)`,
`(1, 1)` at another; its width, right U minus left U, is
`currentTileWidth / imageWidth` and its absolute height is
`currentTileHeight / imageHeight`, as exact rationals. -/
theorem render_texCoord_extent (cfg : TileConfig) (t : Texture) (camera : Nat) (w h : Int)
    (gl : GLObjects) (cam : Camera) (_hw : 0 < w) (hh : 0 < h)
    (_htw : 0 < cfg.tileWidth) (hth : 0 < cfg.tileHeight) (d : DrawCall)
    (hd : d ∈ ((t.afterInit cfg camera w h gl).render cfg cam).2) :
    ∃ u0 v0 u1 v1 : ℚ,
      d.texCoordAt 0 0 = some (u0, v0) ∧ d.texCoordAt 0 1 = some (u0, v1) ∧
      d.texCoordAt 1 1 = some (u1, v1) ∧ d.texCoordAt 1 0 = some (u1, v0) ∧
      u1 - u0 = (d.currentTileWidth : ℚ) / (w : ℚ) ∧
      |v1 - v0| = (d.currentTileHeight : ℚ) / (h : ℚ) := by
  obtain ⟨c, r, _, hc, _, hr, rfl⟩ := mem_render_draws.1 hd
  have hr1 : r < numTiles h cfg.tileHeight := hr
  have hpos : 0 < min cfg.tileHeight (h - r * cfg.tileHeight) := extent_pos hh hth hr1
  have hposq : (0 : ℚ) < ((min cfg.tileHeight (h - r * cfg.tileHeight) : Int) : ℚ) := by
    exact_mod_cast hpos
  have hhq : (0 : ℚ) < (h : ℚ) := by exact_mod_cast hh
  refine ⟨_, _, _, _, renderTile_texCoordAt_00 _ _ _ _ _, renderTile_texCoordAt_01 _ _ _ _ _,
    renderTile_texCoordAt_11 _ _ _ _ _, renderTile_texCoordAt_10 _ _ _ _ _, ?_, ?_⟩
  · simp only [renderTile_currentTileWidth, afterInit_imageWidth]
    push_cast
    ring
  · simp only [renderTile_currentTileHeight, afterInit_imageHeight]
    have e : (1 - ((r * cfg.tileHeight + min cfg.tileHeight (h - r * cfg.tileHeight) : Int) : ℚ)
          / (h : ℚ)) - (1 - ((r * cfg.tileHeight : Int) : ℚ) / (h : ℚ))
        = -(((min cfg.tileHeight (h - r * cfg.tileHeight) : Int) : ℚ) / (h : ℚ)) := by
      push_cast
      ring
    rw [e, abs_neg, abs_of_pos (div_pos hposq hhq)]

/-- Witness for C8: the tile at column 2, row 1 of a 600 x 400 image. -/
theorem render_texCoord_extent_witness :
    (sampleLoaded 600 400).renderTile tileConfig Camera.new 2 1
        ∈ ((sampleLoaded 600 400).render tileConfig Camera.new).2 ∧
    ∃ u0 v0 u1 v1 : ℚ,
      ((sampleLoaded 600 400).renderTile tileConfig Camera.new 2 1).texCoordAt 0 0
        = some (u0, v0) ∧
      ((sampleLoaded 600 400).renderTile tileConfig Camera.new 2 1).texCoordAt 0 1
        = some (u0, v1) ∧
      ((sampleLoaded 600 400).renderTile tileConfig Camera.new 2 1).texCoordAt 1 1
        = some (u1, v1) ∧
      ((sampleLoaded 600 400).renderTile tileConfig Camera.new 2 1).texCoordAt 1 0
        = some (u1, v0) ∧
      u1 - u0 = (((sampleLoaded 600 400).renderTile tileConfig Camera.new 2 1).currentTileWidth
        : ℚ) / ((600 : Int) : ℚ) ∧
      |v1 - v0| = (((sampleLoaded 600 400).renderTile tileConfig Camera.new 2 1).currentTileHeight
        : ℚ) / ((400 : Int) : ℚ) :=
  have hmem : (sampleLoaded 600 400).renderTile tileConfig Camera.new 2 1
      ∈ ((sampleLoaded 600 400).render tileConfig Camera.new).2 :=
    mem_render_draws.2 ⟨2, 1, by decide, by decide, by decide, by decide, rfl⟩
  ⟨hmem, render_texCoord_extent tileConfig sampleTexture 1 600 400 sampleGL Camera.new
    (by decide) (by decide) (by decide) (by decide) _ hmem⟩

/-! ## Dimensions and coordinates outside the contract -/

/-- A size that is not positive gets a tile count that is not positive. -/
theorem numTiles_nonpos {w tw : Int} (hw : w ≤ 0) (htw : 0 < tw) : numTiles w tw ≤ 0 := by
  unfold numTiles intDiv
  rcases le_or_lt 0 (w + tw - 1) with h1 | h1
  · rw [Int.tdiv_eq_ediv h1 (le_of_lt htw)]
    have := Int.ediv_eq_zero_of_lt h1 (by omega : w + tw - 1 < tw)
    omega
  · have e : w + tw - 1 = -(-(w + tw - 1)) := by ring
    rw [e, Int.neg_tdiv]
    have := Int.tdiv_nonneg (a := -(w + tw - 1)) (b := tw) (by omega) (by omega)
    omega

/-- A grid whose count of columns or of rows is not positive draws nothing. -/
theorem render_nil_of_nonpos (cfg : TileConfig) (t : Texture) (cam : Camera)
    (h : t.numTilesX ≤ 0 ∨ t.numTilesY ≤ 0) : (t.render cfg cam).2 = [] := by
  rw [render_draws]
  rcases h with h | h
  · have e : t.numTilesX.toNat = 0 := by omega
    simp [e]
  · have e : t.numTilesY.toNat = 0 := by omega
    simp [e]

/-- Counterexample to C9 as stated: when the loader returns pixel data with width 0 and
height 100, `Texture::init` writes nothing to `std::cerr` and stores the grid
`numTilesX = 0`, `numTilesY = 1`; no failure is reported. -/
theorem init_zero_width_counterexample :
    (Texture.init tileConfig sampleTexture 1 { data := true, x := 0, y := 100 } sampleGL).2.cerr
      = [] ∧
    (Texture.init tileConfig sampleTexture 1
      { data := true, x := 0, y := 100 } sampleGL).1.numTilesX = 0 ∧
    (Texture.init tileConfig sampleTexture 1
      { data := true, x := 0, y := 100 } sampleGL).1.numTilesY = 1 :=
  ⟨rfl, rfl, rfl⟩

/-- C9, amended: `Texture::init` has no `InvalidDimension` check, and computing the tile
grid does not fail when the image width or height is zero or negative (the tile width
and height are the constants 256).  Whenever the loader returns data, for every width
and height the counts `numTilesX = (width + 255) / 256` and
`numTilesY = (height + 255) / 256` (truncating division) are stored, and the lines on
`std::cerr` are those of the shader compile and link checks alone, none for the
dimensions; a loaded image of width 0 and height 100 gets the grid 0 x 1. -/
theorem init_has_no_dimension_check (t : Texture) (camera : Nat) (x y : Int)
    (gl : GLObjects) :
    (Texture.init tileConfig t camera { data := true, x := x, y := y } gl).1.numTilesX
      = intDiv (x + 255) 256 ∧
    (Texture.init tileConfig t camera { data := true, x := x, y := y } gl).1.numTilesY
      = intDiv (y + 255) 256 ∧
    (Texture.init tileConfig t camera { data := true, x := x, y := y } gl).2.cerr
      = (createShaderProgram gl).2 ∧
    (Texture.init tileConfig t camera { data := true, x := 0, y := 100 } gl).1.numTilesX = 0 ∧
    (Texture.init tileConfig t camera { data := true, x := 0, y := 100 } gl).1.numTilesY = 1 := by
  refine ⟨?_, ?_, rfl, rfl, rfl⟩
  · show numTiles x 256 = intDiv (x + 255) 256
    unfold numTiles
    congr 1
    omega
  · show numTiles y 256 = intDiv (y + 255) 256
    unfold numTiles
    congr 1
    omega

theorem glmTranslate_eq_mul (m : Mat4) (x y z : ℚ) :
    glmTranslate m x y z = m * glmTranslate 1 x y z := by
  simp [glmTranslate]

theorem glmScale_eq_mul (m : Mat4) (x y z : ℚ) :
    glmScale m x y z = m * glmScale 1 x y z := by
  simp [glmScale]

/-- A translation followed by a scaling, both applied to the identity by the
post-multiplying calls of glm, scales the point first and then shifts it. -/
theorem vertexShader_translate_scale (tx ty tz sx sy sz : ℚ) (p : ℚ × ℚ × ℚ) :
    vertexShader (glmScale (glmTranslate 1 tx ty tz) sx sy sz) p
      = ![tx + sx * p.1, ty + sy * p.2.1, tz + sz * p.2.2, 1] := by
  funext i
  fin_cases i <;>
    simp [vertexShader, glmScale, glmTranslate, Matrix.mul_apply, Matrix.mulVec,
      Matrix.dotProduct, Fin.sum_univ_four] <;> ring

/-- A scaling followed by a translation, applied the same way, shifts the point first
and then scales it. -/
theorem vertexShader_scale_translate (s ox oy : ℚ) (p : ℚ × ℚ × ℚ) :
    vertexShader (glmTranslate (glmScale 1 s s 1) ox oy 0) p
      = ![s * (p.1 + ox), s * (p.2.1 + oy), p.2.2, 1] := by
  funext i
  fin_cases i <;>
    simp [vertexShader, glmScale, glmTranslate, Matrix.mul_apply, Matrix.mulVec,
      Matrix.dotProduct, Fin.sum_univ_four] <;> ring

/-- The `model` uniform of a tile is the camera transform times the translation and
scaling of the tile. -/
theorem renderTile_model (cfg : TileConfig) (t : Texture) (cam : Camera) (c r : Int) :
    (t.renderTile cfg cam c r).model
      = cam.getTransform *
        glmScale (glmTranslate 1
          (2 * ((c * cfg.tileWidth : Int) : ℚ) / (t.imageWidth : ℚ) - 1)
          (2 * ((r * cfg.tileHeight : Int) : ℚ) / (t.imageHeight : ℚ) - 1) 0)
          (2 * ((min cfg.tileWidth (t.imageWidth - c * cfg.tileWidth) : Int) : ℚ)
            / (t.imageWidth : ℚ))
          (2 * ((min cfg.tileHeight (t.imageHeight - r * cfg.tileHeight) : Int) : ℚ)
            / (t.imageHeight : ℚ)) 1 := by
  show glmScale (glmTranslate cam.getTransform _ _ _) _ _ _ = _
  rw [glmScale_eq_mul, glmTranslate_eq_mul, Matrix.mul_assoc, ← glmScale_eq_mul]

/-- Counterexample to C12 as stated: for the camera with scale 2 and offset `(1, 0)`
the matrix of `Camera::getTransform` sends the point `(0, 0, 0, 1)` to `(2, 0, 0, 1)`,
the scaled offset, and not to `(s * 0 + ox, s * 0 + oy, 0, 1) = (1, 0, 0, 1)`. -/
theorem getTransform_counterexample :
    vertexShader (Camera.getTransform { scale := 2, offset := (1, 0) }) (0, 0, 0)
      = ![2, 0, 0, 1] ∧
    vertexShader (Camera.getTransform { scale := 2, offset := (1, 0) }) (0, 0, 0)
      ≠ ![2 * 0 + 1, 2 * 0 + 0, 0, 1] := by
  have h : vertexShader (Camera.getTransform { scale := 2, offset := (1, 0) }) (0, 0, 0)
      = ![2, 0, 0, 1] := by
    show vertexShader (glmTranslate (glmScale 1 2 2 1) 1 0 0) (0, 0, 0) = _
    rw [vertexShader_scale_translate]
    norm_num
  refine ⟨h, ?_⟩
  rw [h]
  intro hcon
  have := congrFun hcon 0
  norm_num at this

/-- C12, amended: for every camera state (scale `s`, pan offset `(ox, oy)`) the matrix
of `Camera::getTransform`, built by `glm::scale` and then `glm::translate`, maps a point
`(x, y, z, 1)` to `(s * (x + ox), s * (y + oy), z, 1)`: the pan offset is added first
and scaled together with the point.  Within one call of `Texture::render` that matrix is
the left factor of the model transform of every tile, the right factor being the tile's
own translation and scaling, which does not depend on the camera. -/
theorem getTransform_scales_offset (c : Camera) (x y z : ℚ) (cfg : TileConfig)
    (t : Texture) :
    vertexShader c.getTransform (x, y, z)
      = ![c.scale * (x + c.offset.1), c.scale * (y + c.offset.2), z, 1] ∧
    (∀ tileX tileY : Int, ∃ L : Mat4, ∀ cam : Camera,
      (t.renderTile cfg cam tileX tileY).model = cam.getTransform * L) ∧
    (∀ cam : Camera, ∀ d ∈ (t.render cfg cam).2, ∃ L : Mat4,
      d.model = cam.getTransform * L ∧
      ∀ px py : ℚ, vertexShader L (px, py, 0)
        = ![(2 * (d.xOffset : ℚ) / (t.imageWidth : ℚ) - 1)
              + 2 * (d.currentTileWidth : ℚ) / (t.imageWidth : ℚ) * px,
            (2 * (d.yOffset : ℚ) / (t.imageHeight : ℚ) - 1)
              + 2 * (d.currentTileHeight : ℚ) / (t.imageHeight : ℚ) * py, 0, 1]) := by
  refine ⟨?_, ?_, ?_⟩
  · show vertexShader (glmTranslate (glmScale 1 c.scale c.scale 1) c.offset.1 c.offset.2 0) _ = _
    rw [vertexShader_scale_translate]
  · intro tileX tileY
    exact ⟨_, fun cam => renderTile_model cfg t cam tileX tileY⟩
  · intro cam d hd
    obtain ⟨tileX, tileY, _, _, _, _, rfl⟩ := mem_render_draws.1 hd
    refine ⟨_, renderTile_model cfg t cam tileX tileY, fun px py => ?_⟩
    rw [vertexShader_translate_scale]
    simp

/-! ## The rectangles of the tiles in normalised device coordinates -/

/-- Along one axis the edges `2x/W - 1` and `2(x + w)/W - 1` of a tile of the grid are
ordered and lie between -1 and 1. -/
theorem axis_ndc_inside {w tw c : Int} (hw : 0 < w) (htw : 0 < tw) (hc0 : 0 ≤ c)
    (hc : c < numTiles w tw) :
    -1 ≤ 2 * ((c * tw : Int) : ℚ) / (w : ℚ) - 1 ∧
    2 * ((c * tw : Int) : ℚ) / (w : ℚ) - 1
      < 2 * (((c * tw : Int) : ℚ) + ((min tw (w - c * tw) : Int) : ℚ)) / (w : ℚ) - 1 ∧
    2 * (((c * tw : Int) : ℚ) + ((min tw (w - c * tw) : Int) : ℚ)) / (w : ℚ) - 1 ≤ 1 := by
  have hwq : (0 : ℚ) < (w : ℚ) := by exact_mod_cast hw
  have hpos : 0 < min tw (w - c * tw) := extent_pos hw htw hc
  have hle : c * tw + min tw (w - c * tw) ≤ w := by
    have := min_le_right tw (w - c * tw)
    omega
  have hoff : 0 ≤ c * tw := mul_nonneg hc0 (le_of_lt htw)
  have hposq : (0 : ℚ) < ((min tw (w - c * tw) : Int) : ℚ) := by exact_mod_cast hpos
  have hleq : ((c * tw : Int) : ℚ) + ((min tw (w - c * tw) : Int) : ℚ) ≤ (w : ℚ) := by
    exact_mod_cast hle
  have hoffq : (0 : ℚ) ≤ ((c * tw : Int) : ℚ) := by exact_mod_cast hoff
  refine ⟨?_, ?_, ?_⟩
  · have : 0 ≤ 2 * ((c * tw : Int) : ℚ) / (w : ℚ) := by positivity
    linarith
  · have : 2 * ((c * tw : Int) : ℚ) / (w : ℚ)
        < 2 * (((c * tw : Int) : ℚ) + ((min tw (w - c * tw) : Int) : ℚ)) / (w : ℚ) := by
      apply div_lt_div_of_pos_right _ hwq
      linarith
    linarith
  · have : 2 * (((c * tw : Int) : ℚ) + ((min tw (w - c * tw) : Int) : ℚ)) / (w : ℚ) ≤ 2 := by
      rw [div_le_iff₀ hwq]
      linarith
    linarith

/-- Along one axis every coordinate between -1 and 1 lies between the edges of some
tile of the grid. -/
theorem axis_ndc_cover {w tw : Int} (hw : 0 < w) (htw : 0 < tw) (X : ℚ)
    (hX0 : -1 ≤ X) (hX1 : X ≤ 1) :
    ∃ c : Int, 0 ≤ c ∧ c < numTiles w tw ∧
      2 * ((c * tw : Int) : ℚ) / (w : ℚ) - 1 ≤ X ∧
      X ≤ 2 * (((c * tw : Int) : ℚ) + ((min tw (w - c * tw) : Int) : ℚ)) / (w : ℚ) - 1 := by
  have hwq : (0 : ℚ) < (w : ℚ) := by exact_mod_cast hw
  have htq : (0 : ℚ) < (tw : ℚ) := by exact_mod_cast htw
  have hn := numTiles_pos hw htw
  have hb := numTiles_bounds hw htw
  -- the pixel coordinate of `X`
  have hp0 : 0 ≤ (X + 1) * (w : ℚ) / 2 := by
    have : 0 ≤ X + 1 := by linarith
    positivity
  have hp1 : (X + 1) * (w : ℚ) / 2 ≤ (w : ℚ) := by nlinarith
  have hk0 : 0 ≤ ⌊(X + 1) * (w : ℚ) / 2 / (tw : ℚ)⌋ := Int.floor_nonneg.2 (by positivity)
  have hk1 : (⌊(X + 1) * (w : ℚ) / 2 / (tw : ℚ)⌋ : ℚ) * (tw : ℚ) ≤ (X + 1) * (w : ℚ) / 2 := by
    rw [← le_div_iff₀ htq]
    exact Int.floor_le _
  have hk2 : (X + 1) * (w : ℚ) / 2
      < ((⌊(X + 1) * (w : ℚ) / 2 / (tw : ℚ)⌋ : ℚ) + 1) * (tw : ℚ) := by
    rw [← div_lt_iff₀ htq]
    exact Int.lt_floor_add_one _
  -- both edges, in terms of the pixel coordinate
  have key : ∀ c : Int, ((c * tw : Int) : ℚ) ≤ (X + 1) * (w : ℚ) / 2 →
      (X + 1) * (w : ℚ) / 2 ≤ ((c * tw : Int) : ℚ) + ((min tw (w - c * tw) : Int) : ℚ) →
      2 * ((c * tw : Int) : ℚ) / (w : ℚ) - 1 ≤ X ∧
      X ≤ 2 * (((c * tw : Int) : ℚ) + ((min tw (w - c * tw) : Int) : ℚ)) / (w : ℚ) - 1 := by
    intro c h1 h2
    constructor
    · have : 2 * ((c * tw : Int) : ℚ) / (w : ℚ) ≤ X + 1 := by
        rw [div_le_iff₀ hwq]
        linarith
      linarith
    · have : X + 1 ≤ 2 * (((c * tw : Int) : ℚ) + ((min tw (w - c * tw) : Int) : ℚ))
          / (w : ℚ) := by
        rw [le_div_iff₀ hwq]
        linarith
      linarith
  rcases le_or_lt ⌊(X + 1) * (w : ℚ) / 2 / (tw : ℚ)⌋ (numTiles w tw - 1) with hk | hk
  · refine ⟨⌊(X + 1) * (w : ℚ) / 2 / (tw : ℚ)⌋, hk0, by omega, ?_⟩
    apply key
    · push_cast
      exact hk1
    · rw [Int.cast_min]
      push_cast
      rcases le_total (tw : ℚ)
        ((w : ℚ) - (⌊(X + 1) * (w : ℚ) / 2 / (tw : ℚ)⌋ : ℚ) * (tw : ℚ)) with h | h
      · rw [min_eq_left h]
        linarith
      · rw [min_eq_right h]
        linarith
  · -- the coordinate is the far edge of the image
    have hfull : ((numTiles w tw : Int) : ℚ) * (tw : ℚ) ≤ (X + 1) * (w : ℚ) / 2 := by
      have h1 : ((numTiles w tw : Int) : ℚ) ≤ (⌊(X + 1) * (w : ℚ) / 2 / (tw : ℚ)⌋ : ℚ) := by
        exact_mod_cast (by omega : numTiles w tw ≤ ⌊(X + 1) * (w : ℚ) / 2 / (tw : ℚ)⌋)
      nlinarith
    have hwn : (w : ℚ) ≤ ((numTiles w tw : Int) : ℚ) * (tw : ℚ) := by exact_mod_cast hb.2
    have hlast : (numTiles w tw - 1) * tw < w := hb.1
    refine ⟨numTiles w tw - 1, by omega, by omega, ?_⟩
    apply key
    · have : (((numTiles w tw - 1) * tw : Int) : ℚ) ≤ (w : ℚ) := by exact_mod_cast le_of_lt hlast
      linarith
    · have e : (numTiles w tw - 1) * tw + min tw (w - (numTiles w tw - 1) * tw) = w := by
        have h3 : (numTiles w tw - 1) * tw = numTiles w tw * tw - tw := by ring
        rw [min_eq_right (by omega)]
        omega
      have eq : (((numTiles w tw - 1) * tw : Int) : ℚ)
          + ((min tw (w - (numTiles w tw - 1) * tw) : Int) : ℚ) = (w : ℚ) := by
        exact_mod_cast e
      rw [eq]
      exact hp1

theorem renderTile_ndcLeft (cfg : TileConfig) (t : Texture) (cam : Camera) (c r W : Int) :
    (t.renderTile cfg cam c r).ndcLeft W
      = 2 * ((c * cfg.tileWidth : Int) : ℚ) / (W : ℚ) - 1 := rfl

theorem renderTile_ndcRight (cfg : TileConfig) (t : Texture) (cam : Camera) (c r W : Int) :
    (t.renderTile cfg cam c r).ndcRight W
      = 2 * (((c * cfg.tileWidth : Int) : ℚ)
          + ((min cfg.tileWidth (t.imageWidth - c * cfg.tileWidth) : Int) : ℚ)) / (W : ℚ) - 1 :=
  rfl

theorem renderTile_ndcBottom (cfg : TileConfig) (t : Texture) (cam : Camera) (c r H : Int) :
    (t.renderTile cfg cam c r).ndcBottom H
      = 2 * ((r * cfg.tileHeight : Int) : ℚ) / (H : ℚ) - 1 := rfl

theorem renderTile_ndcTop (cfg : TileConfig) (t : Texture) (cam : Camera) (c r H : Int) :
    (t.renderTile cfg cam c r).ndcTop H
      = 2 * (((r * cfg.tileHeight : Int) : ℚ)
          + ((min cfg.tileHeight (t.imageHeight - r * cfg.tileHeight) : Int) : ℚ))
            / (H : ℚ) - 1 :=
  rfl

/-- The translation and scaling of a tile send the corner `(px, py)` of the unit quad
to the point that divides the rectangle of the tile in the same proportions. -/
theorem renderTile_tileTransform (cfg : TileConfig) (t : Texture) (cam : Camera)
    (c r : Int) (px py : ℚ) :
    vertexShader (glmScale (glmTranslate 1
          (2 * ((c * cfg.tileWidth : Int) : ℚ) / (t.imageWidth : ℚ) - 1)
          (2 * ((r * cfg.tileHeight : Int) : ℚ) / (t.imageHeight : ℚ) - 1) 0)
          (2 * ((min cfg.tileWidth (t.imageWidth - c * cfg.tileWidth) : Int) : ℚ)
            / (t.imageWidth : ℚ))
          (2 * ((min cfg.tileHeight (t.imageHeight - r * cfg.tileHeight) : Int) : ℚ)
            / (t.imageHeight : ℚ)) 1) (px, py, 0)
      = ![(1 - px) * (t.renderTile cfg cam c r).ndcLeft t.imageWidth
            + px * (t.renderTile cfg cam c r).ndcRight t.imageWidth,
          (1 - py) * (t.renderTile cfg cam c r).ndcBottom t.imageHeight
            + py * (t.renderTile cfg cam c r).ndcTop t.imageHeight, 0, 1] := by
  rw [vertexShader_translate_scale, renderTile_ndcLeft, renderTile_ndcRight,
    renderTile_ndcBottom, renderTile_ndcTop]
  funext i
  fin_cases i
  · simp only [Fin.zero_eta, Matrix.cons_val_zero]
    ring
  · simp only [Fin.mk_one, Matrix.cons_val_one, Matrix.head_cons]
    ring
  · simp
  · simp

/-- A point between the ends of an interval is an affine combination of the ends with
a weight between 0 and 1. -/
theorem exists_weight {a b X : ℚ} (hab : a < b) (h1 : a ≤ X) (h2 : X ≤ b) :
    ∃ p : ℚ, 0 ≤ p ∧ p ≤ 1 ∧ (1 - p) * a + p * b = X := by
  have hba : 0 < b - a := by linarith
  refine ⟨(X - a) / (b - a), div_nonneg (by linarith) (le_of_lt hba), ?_, ?_⟩
  · rw [div_le_one hba]
    linarith
  · field_simp
    ring

theorem weight_between {a b p : ℚ} (hab : a < b) (h0 : 0 ≤ p) (h1 : p ≤ 1) :
    a ≤ (1 - p) * a + p * b ∧ (1 - p) * a + p * b ≤ b := by
  constructor <;> nlinarith

/-- C11, amended: in exact rational arithmetic, the `float` expressions taken without
rounding, for an image of positive size and every tile `(tileX, tileY)` of the grid, the
model transform of the tile is the camera transform times a matrix `L` (translate by
`(2x/W - 1, 2y/H - 1)`, then scale by `(2w/W, 2h/H)`) that does not depend on the
camera, and `L` maps the unit quad onto the rectangle
`[2x/W - 1, 2(x+w)/W - 1] x [2y/H - 1, 2(y+h)/H - 1]`: the corner `(px, py)` goes to the
point dividing the rectangle in the proportions `px`, `py`, every point of the quad
lands in the rectangle and every point of the rectangle is reached.  The rectangle is
not degenerate and lies inside `[-1, 1] x [-1, 1]`; the tile to the right starts at the
right edge of this one with the same vertical extent, the tile of the next row starts at
its far edge with the same horizontal extent; and every point of `[-1, 1] x [-1, 1]`
lies in the rectangle of a tile that `Texture::render` draws. -/
theorem render_model_rectangles (cfg : TileConfig) (t : Texture) (camera : Nat)
    (w h : Int) (gl : GLObjects) (cam : Camera) (hw : 0 < w) (hh : 0 < h)
    (htw : 0 < cfg.tileWidth) (hth : 0 < cfg.tileHeight) (tileX tileY : Int)
    (hx0 : 0 ≤ tileX) (hx : tileX < (t.afterInit cfg camera w h gl).numTilesX)
    (hy0 : 0 ≤ tileY) (hy : tileY < (t.afterInit cfg camera w h gl).numTilesY) :
    (t.afterInit cfg camera w h gl).renderTile cfg cam tileX tileY
        ∈ ((t.afterInit cfg camera w h gl).render cfg cam).2 ∧
    (∃ L : Mat4,
      (∀ cam2 : Camera, ((t.afterInit cfg camera w h gl).renderTile cfg cam2 tileX tileY).model
        = cam2.getTransform * L) ∧
      (∀ px py : ℚ, vertexShader L (px, py, 0)
        = ![(1 - px) * ((t.afterInit cfg camera w h gl).renderTile cfg cam tileX tileY).ndcLeft w
              + px * ((t.afterInit cfg camera w h gl).renderTile cfg cam tileX tileY).ndcRight w,
            (1 - py) * ((t.afterInit cfg camera w h gl).renderTile cfg cam tileX tileY).ndcBottom h
              + py * ((t.afterInit cfg camera w h gl).renderTile cfg cam tileX tileY).ndcTop h,
            0, 1]) ∧
      (∀ px py : ℚ, 0 ≤ px → px ≤ 1 → 0 ≤ py → py ≤ 1 → ∃ X Y : ℚ,
        vertexShader L (px, py, 0) = ![X, Y, 0, 1] ∧
        ((t.afterInit cfg camera w h gl).renderTile cfg cam tileX tileY).ndcLeft w ≤ X ∧
        X ≤ ((t.afterInit cfg camera w h gl).renderTile cfg cam tileX tileY).ndcRight w ∧
        ((t.afterInit cfg camera w h gl).renderTile cfg cam tileX tileY).ndcBottom h ≤ Y ∧
        Y ≤ ((t.afterInit cfg camera w h gl).renderTile cfg cam tileX tileY).ndcTop h) ∧
      (∀ X Y : ℚ,
        ((t.afterInit cfg camera w h gl).renderTile cfg cam tileX tileY).ndcLeft w ≤ X →
        X ≤ ((t.afterInit cfg camera w h gl).renderTile cfg cam tileX tileY).ndcRight w →
        ((t.afterInit cfg camera w h gl).renderTile cfg cam tileX tileY).ndcBottom h ≤ Y →
        Y ≤ ((t.afterInit cfg camera w h gl).renderTile cfg cam tileX tileY).ndcTop h →
        ∃ px py : ℚ, 0 ≤ px ∧ px ≤ 1 ∧ 0 ≤ py ∧ py ≤ 1 ∧
          vertexShader L (px, py, 0) = ![X, Y, 0, 1])) ∧
    (((t.afterInit cfg camera w h gl).renderTile cfg cam tileX tileY).ndcLeft w
        < ((t.afterInit cfg camera w h gl).renderTile cfg cam tileX tileY).ndcRight w ∧
      ((t.afterInit cfg camera w h gl).renderTile cfg cam tileX tileY).ndcBottom h
        < ((t.afterInit cfg camera w h gl).renderTile cfg cam tileX tileY).ndcTop h) ∧
    (-1 ≤ ((t.afterInit cfg camera w h gl).renderTile cfg cam tileX tileY).ndcLeft w ∧
      ((t.afterInit cfg camera w h gl).renderTile cfg cam tileX tileY).ndcRight w ≤ 1 ∧
      -1 ≤ ((t.afterInit cfg camera w h gl).renderTile cfg cam tileX tileY).ndcBottom h ∧
      ((t.afterInit cfg camera w h gl).renderTile cfg cam tileX tileY).ndcTop h ≤ 1) ∧
    (tileX + 1 < (t.afterInit cfg camera w h gl).numTilesX →
      ((t.afterInit cfg camera w h gl).renderTile cfg cam tileX tileY).ndcRight w
        = ((t.afterInit cfg camera w h gl).renderTile cfg cam (tileX + 1) tileY).ndcLeft w ∧
      ((t.afterInit cfg camera w h gl).renderTile cfg cam tileX tileY).ndcBottom h
        = ((t.afterInit cfg camera w h gl).renderTile cfg cam (tileX + 1) tileY).ndcBottom h ∧
      ((t.afterInit cfg camera w h gl).renderTile cfg cam tileX tileY).ndcTop h
        = ((t.afterInit cfg camera w h gl).renderTile cfg cam (tileX + 1) tileY).ndcTop h) ∧
    (tileY + 1 < (t.afterInit cfg camera w h gl).numTilesY →
      ((t.afterInit cfg camera w h gl).renderTile cfg cam tileX tileY).ndcTop h
        = ((t.afterInit cfg camera w h gl).renderTile cfg cam tileX (tileY + 1)).ndcBottom h ∧
      ((t.afterInit cfg camera w h gl).renderTile cfg cam tileX tileY).ndcLeft w
        = ((t.afterInit cfg camera w h gl).renderTile cfg cam tileX (tileY + 1)).ndcLeft w ∧
      ((t.afterInit cfg camera w h gl).renderTile cfg cam tileX tileY).ndcRight w
        = ((t.afterInit cfg camera w h gl).renderTile cfg cam tileX (tileY + 1)).ndcRight w) ∧
    (∀ X Y : ℚ, -1 ≤ X → X ≤ 1 → -1 ≤ Y → Y ≤ 1 →
      ∃ e ∈ ((t.afterInit cfg camera w h gl).render cfg cam).2,
        e.ndcLeft w ≤ X ∧ X ≤ e.ndcRight w ∧ e.ndcBottom h ≤ Y ∧ Y ≤ e.ndcTop h) := by
  have hx1 : tileX < numTiles w cfg.tileWidth := hx
  have hy1 : tileY < numTiles h cfg.tileHeight := hy
  have hX := axis_ndc_inside hw htw hx0 hx1
  have hY := axis_ndc_inside hh hth hy0 hy1
  have hlr : ((t.afterInit cfg camera w h gl).renderTile cfg cam tileX tileY).ndcLeft w
      < ((t.afterInit cfg camera w h gl).renderTile cfg cam tileX tileY).ndcRight w := hX.2.1
  have hbt : ((t.afterInit cfg camera w h gl).renderTile cfg cam tileX tileY).ndcBottom h
      < ((t.afterInit cfg camera w h gl).renderTile cfg cam tileX tileY).ndcTop h := hY.2.1
  have hmap := renderTile_tileTransform cfg (t.afterInit cfg camera w h gl) cam tileX tileY
  refine ⟨mem_render_draws.2 ⟨tileX, tileY, hx0, hx, hy0, hy, rfl⟩,
    ⟨_, fun cam2 => renderTile_model cfg _ cam2 tileX tileY, fun px py => hmap px py, ?_, ?_⟩,
    ⟨hlr, hbt⟩, ⟨hX.1, hX.2.2, hY.1, hY.2.2⟩, ?_, ?_, ?_⟩
  · intro px py hp0 hp1 hq0 hq1
    have a := weight_between hlr hp0 hp1
    have b := weight_between hbt hq0 hq1
    exact ⟨_, _, hmap px py, a.1, a.2, b.1, b.2⟩
  · intro X Y h1 h2 h3 h4
    obtain ⟨px, hp0, hp1, hpx⟩ := exists_weight hlr h1 h2
    obtain ⟨py, hq0, hq1, hpy⟩ := exists_weight hbt h3 h4
    refine ⟨px, py, hp0, hp1, hq0, hq1, ?_⟩
    rw [hmap px py]
    simp only [afterInit_imageWidth, afterInit_imageHeight]
    rw [hpx, hpy]
  · intro hnext
    have hnext1 : tileX < numTiles w cfg.tileWidth - 1 := by
      have : tileX + 1 < numTiles w cfg.tileWidth := hnext
      omega
    refine ⟨?_, rfl, rfl⟩
    rw [renderTile_ndcRight, renderTile_ndcLeft, afterInit_imageWidth,
      extent_full_of_interior hw htw hnext1]
    push_cast
    ring
  · intro hnext
    have hnext1 : tileY < numTiles h cfg.tileHeight - 1 := by
      have : tileY + 1 < numTiles h cfg.tileHeight := hnext
      omega
    refine ⟨?_, rfl, rfl⟩
    rw [renderTile_ndcTop, renderTile_ndcBottom, afterInit_imageHeight,
      extent_full_of_interior hh hth hnext1]
    push_cast
    ring
  · intro X Y hX0 hX1 hY0 hY1
    obtain ⟨c, hc0, hc, hc1, hc2⟩ := axis_ndc_cover hw htw X hX0 hX1
    obtain ⟨r, hr0, hr, hr1, hr2⟩ := axis_ndc_cover hh hth Y hY0 hY1
    exact ⟨(t.afterInit cfg camera w h gl).renderTile cfg cam c r,
      mem_render_draws.2 ⟨c, r, hc0, hc, hr0, hr, rfl⟩, hc1, hc2, hr1, hr2⟩

/-- Witness for C11: the tile at column 2, row 1 of a 600 x 400 image. -/
theorem render_model_rectangles_witness :
    ((sampleLoaded 600 400).renderTile tileConfig Camera.new 2 1).ndcLeft 600
        < ((sampleLoaded 600 400).renderTile tileConfig Camera.new 2 1).ndcRight 600 ∧
    ((sampleLoaded 600 400).renderTile tileConfig Camera.new 2 1).ndcBottom 400
        < ((sampleLoaded 600 400).renderTile tileConfig Camera.new 2 1).ndcTop 400 :=
  (render_model_rectangles tileConfig sampleTexture 1 600 400 sampleGL Camera.new
    (by decide) (by decide) (by decide) (by decide) 2 1 (by decide) (by decide) (by decide)
    (by decide)).2.2.1

/-! ## The model transform in binary32 -/

theorem roundHalfEven_eq {x : ℚ} {m : ℤ} (h1 : (m : ℚ) - 1 / 2 < x)
    (h2 : x < (m : ℚ) + 1 / 2) : roundHalfEven x = m := by
  unfold roundHalfEven
  rcases le_or_lt (m : ℚ) x with h | h
  · have hf : ⌊x⌋ = m := Int.floor_eq_iff.2 ⟨h, by linarith⟩
    simp only [hf]
    rw [if_pos (by linarith)]
  · have hf : ⌊x⌋ = m - 1 :=
      Int.floor_eq_iff.2 ⟨by push_cast; linarith, by push_cast; linarith⟩
    simp only [hf]
    rw [if_neg (by push_cast; linarith), if_pos (by push_cast; linarith)]
    ring

/-- The binary32 value of `q` is `m * 2 ^ e` when `2 ^ (e + 23) ≤ |q| < 2 ^ (e + 24)`
and `m` is the integer within a half of `q / 2 ^ e`. -/
theorem binary32_eq {q : ℚ} (e m : ℤ) (hlo : (2 : ℚ) ^ (e + 23) ≤ |q|)
    (hhi : |q| < (2 : ℚ) ^ (e + 24)) (he : -149 ≤ e)
    (h1 : (m : ℚ) - 1 / 2 < q / 2 ^ e) (h2 : q / 2 ^ e < (m : ℚ) + 1 / 2) :
    binary32 q = (m : ℚ) * 2 ^ e := by
  have hpos : 0 < |q| := lt_of_lt_of_le (by positivity) hlo
  have hq : q ≠ 0 := abs_pos.1 hpos
  have hlog : Int.log 2 |q| = e + 23 := by
    have a : e + 23 ≤ Int.log 2 |q| :=
      (Int.zpow_le_iff_le_log (by norm_num) hpos).1 (by exact_mod_cast hlo)
    have b : Int.log 2 |q| < e + 24 :=
      (Int.lt_zpow_iff_log_lt (by norm_num) hpos).1 (by exact_mod_cast hhi)
    omega
  unfold binary32
  rw [if_neg hq]
  simp only [hlog]
  rw [max_eq_left (by omega), show e + 23 - 23 = e by ring, roundHalfEven_eq h1 h2]

theorem binary32_256 : binary32 256 = 256 := by
  rw [binary32_eq (-15) (256 * 2 ^ 15) (by norm_num [abs_of_pos])
    (by norm_num [abs_of_pos]) (by norm_num) (by norm_num) (by norm_num)]
  norm_num

theorem binary32_512 : binary32 512 = 512 := by
  rw [binary32_eq (-14) (512 * 2 ^ 14) (by norm_num [abs_of_pos])
    (by norm_num [abs_of_pos]) (by norm_num) (by norm_num) (by norm_num)]
  norm_num

theorem binary32_768 : binary32 768 = 768 := by
  rw [binary32_eq (-14) (768 * 2 ^ 14) (by norm_num [abs_of_pos])
    (by norm_num [abs_of_pos]) (by norm_num) (by norm_num) (by norm_num)]
  norm_num

theorem binary32_1000 : binary32 1000 = 1000 := by
  rw [binary32_eq (-14) (1000 * 2 ^ 14) (by norm_num [abs_of_pos])
    (by norm_num [abs_of_pos]) (by norm_num) (by norm_num) (by norm_num)]
  norm_num

theorem binary32_1024 : binary32 1024 = 1024 := by
  rw [binary32_eq (-13) (1024 * 2 ^ 13) (by norm_num [abs_of_pos])
    (by norm_num [abs_of_pos]) (by norm_num) (by norm_num) (by norm_num)]
  norm_num

theorem binary32_1536 : binary32 1536 = 1536 := by
  rw [binary32_eq (-13) (1536 * 2 ^ 13) (by norm_num [abs_of_pos])
    (by norm_num [abs_of_pos]) (by norm_num) (by norm_num) (by norm_num)]
  norm_num

/-- The quotient 1024/1000 is rounded up to `8589935 / 2 ^ 23`. -/
theorem binary32_1024_div_1000 : binary32 (1024 / 1000) = 8589935 / 2 ^ 23 := by
  rw [binary32_eq (-23) 8589935 (by norm_num [abs_of_pos]) (by norm_num [abs_of_pos])
    (by norm_num) (by norm_num) (by norm_num)]
  norm_num

/-- The quotient 512/1000 is rounded up to `8589935 / 2 ^ 24`. -/
theorem binary32_512_div_1000 : binary32 (512 / 1000) = 8589935 / 2 ^ 24 := by
  rw [binary32_eq (-24) 8589935 (by norm_num [abs_of_pos]) (by norm_num [abs_of_pos])
    (by norm_num) (by norm_num) (by norm_num)]
  norm_num

/-- The quotient 1536/1000 is rounded up to `12884902 / 2 ^ 23`. -/
theorem binary32_1536_div_1000 : binary32 (1536 / 1000) = 12884902 / 2 ^ 23 := by
  rw [binary32_eq (-23) 12884902 (by norm_num [abs_of_pos]) (by norm_num [abs_of_pos])
    (by norm_num) (by norm_num) (by norm_num)]
  norm_num

/-- The difference `8589935 / 2 ^ 23 - 1` is a binary32 value. -/
theorem binary32_left_2 : binary32 (8589935 / 2 ^ 23 - 1) = 201327 / 2 ^ 23 := by
  rw [binary32_eq (-29) (201327 * 2 ^ 6) (by norm_num [abs_of_pos])
    (by norm_num [abs_of_pos]) (by norm_num) (by norm_num) (by norm_num)]
  norm_num

/-- The difference `12884902 / 2 ^ 23 - 1` is a binary32 value. -/
theorem binary32_left_3 : binary32 (12884902 / 2 ^ 23 - 1) = 4496294 / 2 ^ 23 := by
  rw [binary32_eq (-24) (4496294 * 2) (by norm_num [abs_of_pos])
    (by norm_num [abs_of_pos]) (by norm_num) (by norm_num) (by norm_num)]
  norm_num

/-- The `x` coordinate that the binary32 model matrix of a tile gives to the corner
`(px, py, 0)` of the unit quad. -/
theorem tileModelF32_x (cfg : TileConfig) (t : Texture) (tileX tileY : Int) (px py : ℚ) :
    vertexShader (t.tileModelF32 cfg tileX tileY) (px, py, 0) 0
      = (t.tileTranslateF32 cfg tileX tileY).1 + (t.tileScaleF32 cfg tileX tileY).1 * px := by
  unfold Texture.tileModelF32
  rw [vertexShader_translate_scale]
  simp

/-- Counterexample to C11 as stated: in binary32, for an image 1000 pixels wide, tiles 2
and 3 of a row are both in the grid of 4 columns, the model matrix puts the right edge
of tile 2 at `8992589 / 2 ^ 24` and the left edge of tile 3 at `8992588 / 2 ^ 24`, so the
two tiles do not share an edge exactly, and neither edge is `2 * 768 / 1000 - 1`. -/
theorem render_model_rectangles_counterexample :
    (sampleLoaded 1000 400).numTilesX = 4 ∧
    vertexShader ((sampleLoaded 1000 400).tileModelF32 tileConfig 2 0) (1, 0, 0) 0
      = 8992589 / 2 ^ 24 ∧
    vertexShader ((sampleLoaded 1000 400).tileModelF32 tileConfig 3 0) (0, 0, 0) 0
      = 8992588 / 2 ^ 24 ∧
    vertexShader ((sampleLoaded 1000 400).tileModelF32 tileConfig 2 0) (1, 0, 0) 0
      ≠ vertexShader ((sampleLoaded 1000 400).tileModelF32 tileConfig 3 0) (0, 0, 0) 0 ∧
    ((sampleLoaded 1000 400).renderTile tileConfig Camera.new 2 0).ndcRight 1000
      = 2 * 768 / 1000 - 1 ∧
    vertexShader ((sampleLoaded 1000 400).tileModelF32 tileConfig 2 0) (1, 0, 0) 0
      ≠ 2 * 768 / 1000 - 1 := by
  have ht2 : ((sampleLoaded 1000 400).tileTranslateF32 tileConfig 2 0).1 = 201327 / 2 ^ 23 := by
    show binary32 (binary32 (binary32 (2 * binary32 (((2 * 256 : Int) : ℚ)))
      / binary32 ((1000 : Int) : ℚ)) - 1) = _
    norm_num [binary32_512, binary32_1024, binary32_1000]
    rw [show (128 : ℚ) / 125 = 1024 / 1000 by norm_num, binary32_1024_div_1000]
    rw [binary32_left_2]
    norm_num
  have hs2 : ((sampleLoaded 1000 400).tileScaleF32 tileConfig 2 0).1 = 8589935 / 2 ^ 24 := by
    show binary32 (binary32 (2 * binary32 (((min 256 (1000 - 2 * 256) : Int) : ℚ)))
      / binary32 ((1000 : Int) : ℚ)) = _
    norm_num [binary32_256, binary32_512, binary32_1000]
    rw [show (64 : ℚ) / 125 = 512 / 1000 by norm_num, binary32_512_div_1000]
    norm_num
  have ht3 : ((sampleLoaded 1000 400).tileTranslateF32 tileConfig 3 0).1 = 4496294 / 2 ^ 23 := by
    show binary32 (binary32 (binary32 (2 * binary32 (((3 * 256 : Int) : ℚ)))
      / binary32 ((1000 : Int) : ℚ)) - 1) = _
    norm_num [binary32_768, binary32_1536, binary32_1000]
    rw [show (192 : ℚ) / 125 = 1536 / 1000 by norm_num, binary32_1536_div_1000]
    rw [binary32_left_3]
    norm_num
  have e2 : vertexShader ((sampleLoaded 1000 400).tileModelF32 tileConfig 2 0) (1, 0, 0) 0
      = 8992589 / 2 ^ 24 := by
    rw [tileModelF32_x, ht2, hs2]
    norm_num
  have e3 : vertexShader ((sampleLoaded 1000 400).tileModelF32 tileConfig 3 0) (0, 0, 0) 0
      = 8992588 / 2 ^ 24 := by
    rw [tileModelF32_x, ht3]
    norm_num
  refine ⟨rfl, e2, e3, ?_, ?_, ?_⟩
  · rw [e2, e3]
    norm_num
  · rw [renderTile_ndcRight]
    show 2 * ((((2 * 256 : Int) : ℚ)) + ((min 256 (1000 - 2 * 256) : Int) : ℚ))
      / ((1000 : Int) : ℚ) - 1 = _
    norm_num
  · rw [e2]
    norm_num

/-! ## The last tile of a row and of a column -/

/-- The tile count is the only `k` with `(k - 1) * tw < w ≤ k * tw`. -/
theorem numTiles_unique {w tw k : Int} (hw : 0 < w) (htw : 0 < tw)
    (h1 : (k - 1) * tw < w) (h2 : w ≤ k * tw) : numTiles w tw = k := by
  obtain ⟨b1, b2⟩ := numTiles_bounds hw htw
  have a : numTiles w tw - 1 < k :=
    lt_of_mul_lt_mul_right (lt_of_lt_of_le b1 h2) (le_of_lt htw)
  have b : k - 1 < numTiles w tw :=
    lt_of_mul_lt_mul_right (lt_of_lt_of_le h1 b2) (le_of_lt htw)
  omega

/-- The extent of the last tile of an axis, as `Texture::render` computes it, is the
tile size when it divides the image size and the remainder otherwise, and it is the
value of the local `lastTileWidth` of `Texture::init`. -/
theorem last_extent {w tw : Int} (hw : 0 < w) (htw : 0 < tw) :
    min tw (w - (numTiles w tw - 1) * tw)
        = (if intMod w tw = 0 then tw else intMod w tw) ∧
    lastTileSize w tw (numTiles w tw) = (if intMod w tw = 0 then tw else intMod w tw) := by
  have hmod : intMod w tw = w % tw := intMod_eq_emod (le_of_lt hw) (le_of_lt htw)
  have hdiv := Int.ediv_add_emod w tw
  have hm0 := Int.emod_nonneg w (ne_of_gt htw)
  have hm1 := Int.emod_lt_of_pos w htw
  have e1 : tw * (w / tw) = w / tw * tw := by ring
  rw [hmod]
  by_cases hz : w % tw = 0
  · have hn : numTiles w tw = w / tw := by
      apply numTiles_unique hw htw
      · have : (w / tw - 1) * tw = w / tw * tw - tw := by ring
        omega
      · omega
    rw [if_pos hz, hn]
    constructor
    · have : (w / tw - 1) * tw = w / tw * tw - tw := by ring
      rw [min_eq_left (by omega)]
    · unfold lastTileSize
      rw [hmod]
      simp only [hz, if_true]
      rw [if_neg (by omega)]
  · have hn : numTiles w tw = w / tw + 1 := by
      apply numTiles_unique hw htw
      · have : (w / tw + 1 - 1) * tw = w / tw * tw := by ring
        omega
      · have : (w / tw + 1) * tw = w / tw * tw + tw := by ring
        omega
    rw [if_neg hz, hn]
    constructor
    · have : (w / tw + 1 - 1) * tw = w / tw * tw := by ring
      rw [min_eq_right (by omega)]
      omega
    · unfold lastTileSize
      rw [hmod]
      have : (w / tw + 1) * tw = w / tw * tw + tw := by ring
      rw [if_pos (by omega)]
      simp only [hz, if_false]

/-- C13: for an image of positive size and a positive tile size, so for 256, the width
that `Texture::render` computes for a tile of the last column is `tileWidth` when
`imageWidth % tileWidth == 0` and `imageWidth % tileWidth` otherwise, and it is the
value `lastTileWidth` that `Texture::init` computes and prints; the same holds for the
height of a tile of the last row and `lastTileHeight`. -/
theorem last_tile_matches_init (cfg : TileConfig) (t : Texture) (camera : Nat)
    (w h : Int) (gl : GLObjects) (cam : Camera) (hw : 0 < w) (hh : 0 < h)
    (htw : 0 < cfg.tileWidth) (hth : 0 < cfg.tileHeight) :
    (∀ d ∈ ((t.afterInit cfg camera w h gl).render cfg cam).2,
      d.tileX = (t.afterInit cfg camera w h gl).numTilesX - 1 →
      d.currentTileWidth = min cfg.tileWidth (w - ((t.afterInit cfg camera w h gl).numTilesX - 1) * cfg.tileWidth) ∧
      d.currentTileWidth
        = (if intMod w cfg.tileWidth = 0 then cfg.tileWidth else intMod w cfg.tileWidth) ∧
      d.currentTileWidth
        = lastTileSize w cfg.tileWidth (t.afterInit cfg camera w h gl).numTilesX ∧
      ({ label := "Last row tile size", fst := d.currentTileWidth, snd := cfg.tileHeight }
          : Printed)
        ∈ (Texture.init cfg t camera { data := true, x := w, y := h } gl).2.printed) ∧
    (∀ d ∈ ((t.afterInit cfg camera w h gl).render cfg cam).2,
      d.tileY = (t.afterInit cfg camera w h gl).numTilesY - 1 →
      d.currentTileHeight = min cfg.tileHeight (h - ((t.afterInit cfg camera w h gl).numTilesY - 1) * cfg.tileHeight) ∧
      d.currentTileHeight
        = (if intMod h cfg.tileHeight = 0 then cfg.tileHeight else intMod h cfg.tileHeight) ∧
      d.currentTileHeight
        = lastTileSize h cfg.tileHeight (t.afterInit cfg camera w h gl).numTilesY ∧
      ({ label := "Last column tile size", fst := cfg.tileWidth, snd := d.currentTileHeight }
          : Printed)
        ∈ (Texture.init cfg t camera { data := true, x := w, y := h } gl).2.printed) := by
  have hX := last_extent hw htw
  have hY := last_extent hh hth
  constructor
  · intro d hd hlast
    obtain ⟨c, r, _, _, _, _, rfl⟩ := mem_render_draws.1 hd
    have hc : c = numTiles w cfg.tileWidth - 1 := hlast
    have e : (Texture.renderTile cfg (t.afterInit cfg camera w h gl) cam c r).currentTileWidth
        = min cfg.tileWidth (w - (numTiles w cfg.tileWidth - 1) * cfg.tileWidth) := by
      rw [renderTile_currentTileWidth, afterInit_imageWidth, hc]
    refine ⟨e, e.trans hX.1, e.trans (hX.1.trans hX.2.symm), ?_⟩
    rw [e, hX.1, ← hX.2]
    simp [Texture.init]
  · intro d hd hlast
    obtain ⟨c, r, _, _, _, _, rfl⟩ := mem_render_draws.1 hd
    have hr : r = numTiles h cfg.tileHeight - 1 := hlast
    have e : (Texture.renderTile cfg (t.afterInit cfg camera w h gl) cam c r).currentTileHeight
        = min cfg.tileHeight (h - (numTiles h cfg.tileHeight - 1) * cfg.tileHeight) := by
      rw [renderTile_currentTileHeight, afterInit_imageHeight, hr]
    refine ⟨e, e.trans hY.1, e.trans (hY.1.trans hY.2.symm), ?_⟩
    rw [e, hY.1, ← hY.2]
    simp [Texture.init]

/-- Witness for C13: the tile at column 2, row 1 of a 600 x 400 image is in the last
column and in the last row; its size is 88 x 144, the remainders of 600 and 400. -/
theorem last_tile_matches_init_witness :
    ((sampleLoaded 600 400).renderTile tileConfig Camera.new 2 1).currentTileWidth
      = lastTileSize 600 tileConfig.tileWidth (sampleLoaded 600 400).numTilesX ∧
    ((sampleLoaded 600 400).renderTile tileConfig Camera.new 2 1).currentTileHeight
      = lastTileSize 400 tileConfig.tileHeight (sampleLoaded 600 400).numTilesY ∧
    ((sampleLoaded 600 400).renderTile tileConfig Camera.new 2 1).currentTileWidth = 88 ∧
    ((sampleLoaded 600 400).renderTile tileConfig Camera.new 2 1).currentTileHeight = 144 :=
  have hmem : (sampleLoaded 600 400).renderTile tileConfig Camera.new 2 1
      ∈ ((sampleLoaded 600 400).render tileConfig Camera.new).2 :=
    mem_render_draws.2 ⟨2, 1, by decide, by decide, by decide, by decide, rfl⟩
  have h := last_tile_matches_init tileConfig sampleTexture 1 600 400 sampleGL Camera.new
    (by decide) (by decide) (by decide) (by decide)
  ⟨(h.1 _ hmem (by decide)).2.2.1, (h.2 _ hmem (by decide)).2.2.1, by decide, by decide⟩

/-! ## A failed load -/

theorem mainLoop_length (cfg : TileConfig) (t : Texture) (cam : Camera) (ks : List Keys) :
    (mainLoop cfg t cam ks).length = ks.length := by
  induction ks generalizing cam with
  | nil => rfl
  | cons k ks ih => simp [mainLoop, Texture.render, ih]

theorem mem_mainLoop (cfg : TileConfig) (t : Texture) (cam : Camera) (ks : List Keys)
    (f : List DrawCall) (hf : f ∈ mainLoop cfg t cam ks) :
    ∃ cam2 : Camera, f = (t.render cfg cam2).2 := by
  induction ks generalizing cam with
  | nil => simp [mainLoop] at hf
  | cons k ks ih =>
    simp only [mainLoop, List.mem_cons] at hf
    rcases hf with rfl | hf
    · exact ⟨_, rfl⟩
    · exact ih _ hf

theorem jpg_mainLoop_length (t : Jpg.Texture) (cam : Camera) (ks : List Keys) :
    (Jpg.mainLoop t cam ks).length = ks.length := by
  induction ks generalizing cam with
  | nil => rfl
  | cons k ks ih => simp [Jpg.mainLoop, Jpg.Texture.render, ih]

theorem jpg_mem_mainLoop (t : Jpg.Texture) (cam : Camera) (ks : List Keys)
    (f : List QuadDraw) (hf : f ∈ Jpg.mainLoop t cam ks) :
    ∃ cam2 : Camera, f = (t.render cam2).2 := by
  induction ks generalizing cam with
  | nil => simp [Jpg.mainLoop] at hf
  | cons k ks ih =>
    simp only [Jpg.mainLoop, List.mem_cons] at hf
    rcases hf with rfl | hf
    · exact ⟨_, rfl⟩
    · exact ih _ hf

theorem tif_mainLoop_length (t : Tif.Texture) (cam : Camera) (ks : List Keys) :
    (Tif.mainLoop t cam ks).length = ks.length := by
  induction ks generalizing cam with
  | nil => rfl
  | cons k ks ih => simp [Tif.mainLoop, Tif.Texture.render, ih]

theorem tif_mem_mainLoop (t : Tif.Texture) (cam : Camera) (ks : List Keys)
    (f : List QuadDraw) (hf : f ∈ Tif.mainLoop t cam ks) :
    ∃ cam2 : Camera, f = (t.render cam2).2 := by
  induction ks generalizing cam with
  | nil => simp [Tif.mainLoop] at hf
  | cons k ks ih =>
    simp only [Tif.mainLoop, List.mem_cons] at hf
    rcases hf with rfl | hf
    · exact ⟨_, rfl⟩
    · exact ih _ hf

/-- Whether `loadTIFF` succeeds does not depend on the object it is called on. -/
theorem Tif.loadTIFF_fst (t t2 : Tif.Texture) (env : Tif.TiffEnv) :
    (t.loadTIFF env).1 = (t2.loadTIFF env).1 := by
  unfold Tif.Texture.loadTIFF
  dsimp only
  split_ifs <;> rfl

/-- A failing `loadTIFF` leaves the OpenGL object names and the camera pointer alone. -/
theorem Tif.loadTIFF_failure (t : Tif.Texture) (env : Tif.TiffEnv)
    (h : (t.loadTIFF env).1 = false) :
    (t.loadTIFF env).2.1.shaderProgram = t.shaderProgram ∧
    (t.loadTIFF env).2.1.VAO = t.VAO ∧ (t.loadTIFF env).2.1.VBO = t.VBO ∧
    (t.loadTIFF env).2.1.EBO = t.EBO ∧ (t.loadTIFF env).2.1.textureID = t.textureID ∧
    (t.loadTIFF env).2.1.modelLoc = t.modelLoc ∧
    (t.loadTIFF env).2.1.m_camera = t.m_camera := by
  unfold Tif.Texture.loadTIFF at h ⊢
  dsimp only at h ⊢
  split_ifs at h ⊢
  all_goals exact ⟨rfl, rfl, rfl, rfl, rfl, rfl, rfl⟩

/-- C14: in each of the three programs, when the image loader reports failure
(`stbi_load` returns no data, `loadTIFF` returns false), `Texture::init` records the
camera pointer, writes "Failed to load texture" to `std::cerr` and returns: it uploads
no buffers, prints nothing else, and leaves `shaderProgram`, `VAO`, `VBO`, `EBO`,
`textureID` and `modelLoc` (and, in the PNG program, the tile counts) at their values
from before the call.  When the window and OpenGL start up, `main` does not abort on the
failed load: it returns 0 after running the main loop, which calls `render()` on that
state once per frame. -/
theorem init_failure_keeps_objects (cfg : TileConfig) (env : GlfwEnv) (gl : GLObjects)
    (camera : Nat) (tp : Texture) (tj : Jpg.Texture) (tt : Tif.Texture) (img : StbiLoad)
    (tiff : Tif.TiffEnv) (himg : img.data = false) (htiff : (tt.loadTIFF tiff).1 = false)
    (hglfw : env.glfwInit = true) (hwin : env.window = true) (hglew : env.glewInit = true) :
    ((tp.init cfg camera img gl).1.m_camera = some camera ∧
      (tp.init cfg camera img gl).2 = { cerr := ["Failed to load texture"], printed := [] } ∧
      (tp.init cfg camera img gl).1.shaderProgram = tp.shaderProgram ∧
      (tp.init cfg camera img gl).1.VAO = tp.VAO ∧
      (tp.init cfg camera img gl).1.VBO = tp.VBO ∧
      (tp.init cfg camera img gl).1.EBO = tp.EBO ∧
      (tp.init cfg camera img gl).1.textureID = tp.textureID ∧
      (tp.init cfg camera img gl).1.modelLoc = tp.modelLoc ∧
      (tp.init cfg camera img gl).1.numTilesX = tp.numTilesX ∧
      (tp.init cfg camera img gl).1.numTilesY = tp.numTilesY) ∧
    ((tj.init camera img gl).1.m_camera = some camera ∧
      (tj.init camera img gl).2 = { cerr := ["Failed to load texture"], buffers := none } ∧
      (tj.init camera img gl).1.shaderProgram = tj.shaderProgram ∧
      (tj.init camera img gl).1.VAO = tj.VAO ∧
      (tj.init camera img gl).1.VBO = tj.VBO ∧
      (tj.init camera img gl).1.EBO = tj.EBO ∧
      (tj.init camera img gl).1.textureID = tj.textureID ∧
      (tj.init camera img gl).1.modelLoc = tj.modelLoc) ∧
    ((tt.init camera tiff gl).1.m_camera = some camera ∧
      (tt.init camera tiff gl).2 = { cerr := ["Failed to load texture"], buffers := none } ∧
      (tt.init camera tiff gl).1.shaderProgram = tt.shaderProgram ∧
      (tt.init camera tiff gl).1.VAO = tt.VAO ∧
      (tt.init camera tiff gl).1.VBO = tt.VBO ∧
      (tt.init camera tiff gl).1.EBO = tt.EBO ∧
      (tt.init camera tiff gl).1.textureID = tt.textureID ∧
      (tt.init camera tiff gl).1.modelLoc = tt.modelLoc) ∧
    ((main cfg env tp img gl).exitCode = 0 ∧
      (main cfg env tp img gl).cerr = ["Failed to load texture"] ∧
      (main cfg env tp img gl).frames.length = env.frames.length ∧
      ∀ f ∈ (main cfg env tp img gl).frames, ∃ cam : Camera,
        f = ((tp.init cfg 1 img gl).1.render cfg cam).2) ∧
    ((Jpg.main env tj img gl).exitCode = 0 ∧
      (Jpg.main env tj img gl).cerr = ["Failed to load texture"] ∧
      (Jpg.main env tj img gl).frames.length = env.frames.length ∧
      ∀ f ∈ (Jpg.main env tj img gl).frames, ∃ cam : Camera,
        f = ((tj.init 1 img gl).1.render cam).2) ∧
    ((Tif.main env tt tiff gl).exitCode = 0 ∧
      (Tif.main env tt tiff gl).cerr = ["Failed to load texture"] ∧
      (Tif.main env tt tiff gl).frames.length = env.frames.length ∧
      ∀ f ∈ (Tif.main env tt tiff gl).frames, ∃ cam : Camera,
        f = ((tt.init 1 tiff gl).1.render cam).2) := by
  have hp : ∀ cam0 : Nat, tp.init cfg cam0 img gl
      = ({ tp with m_camera := some cam0, imageWidth := img.x, imageHeight := img.y },
          { cerr := ["Failed to load texture"], printed := [] }) := by
    intro cam0
    simp [Texture.init, himg]
  have hj : ∀ cam0 : Nat, tj.init cam0 img gl
      = ({ tj with m_camera := some cam0, imageWidth := img.x, imageHeight := img.y },
          { cerr := ["Failed to load texture"], buffers := none }) := by
    intro cam0
    simp [Jpg.Texture.init, himg]
  have ht : ∀ cam0 : Nat, tt.init cam0 tiff gl
      = ((Tif.Texture.loadTIFF { tt with m_camera := some cam0 } tiff).2.1,
          { cerr := ["Failed to load texture"], buffers := none }) := by
    intro cam0
    have h1 : (Tif.Texture.loadTIFF { tt with m_camera := some cam0 } tiff).1 = false :=
      (Tif.loadTIFF_fst _ tt tiff).trans htiff
    simp [Tif.Texture.init, h1]
  have hfail : ∀ cam0 : Nat,
      (Tif.Texture.loadTIFF { tt with m_camera := some cam0 } tiff).1 = false :=
    fun cam0 => (Tif.loadTIFF_fst _ tt tiff).trans htiff
  have hkeep := Tif.loadTIFF_failure { tt with m_camera := some camera } tiff (hfail camera)
  refine ⟨?_, ?_, ?_, ?_, ?_, ?_⟩
  · rw [hp camera]
    exact ⟨rfl, rfl, rfl, rfl, rfl, rfl, rfl, rfl, rfl, rfl⟩
  · rw [hj camera]
    exact ⟨rfl, rfl, rfl, rfl, rfl, rfl, rfl, rfl⟩
  · rw [ht camera]
    exact ⟨hkeep.2.2.2.2.2.2, rfl, hkeep.1, hkeep.2.1, hkeep.2.2.1, hkeep.2.2.2.1,
      hkeep.2.2.2.2.1, hkeep.2.2.2.2.2.1⟩
  · have hm : main cfg env tp img gl
        = { exitCode := 0, cerr := (tp.init cfg 1 img gl).2.cerr,
            frames := mainLoop cfg (tp.init cfg 1 img gl).1 Camera.new env.frames } := by
      simp [main, hglfw, hwin, hglew]
    rw [hm]
    refine ⟨rfl, ?_, mainLoop_length _ _ _ _, fun f hf => mem_mainLoop _ _ _ _ f hf⟩
    show (tp.init cfg 1 img gl).2.cerr = _
    rw [hp 1]
  · have hm : Jpg.main env tj img gl
        = { exitCode := 0, cerr := (tj.init 1 img gl).2.cerr,
            frames := Jpg.mainLoop (tj.init 1 img gl).1 Camera.new env.frames } := by
      simp [Jpg.main, hglfw, hwin, hglew]
    rw [hm]
    refine ⟨rfl, ?_, jpg_mainLoop_length _ _ _, fun f hf => jpg_mem_mainLoop _ _ _ f hf⟩
    show (tj.init 1 img gl).2.cerr = _
    rw [hj 1]
  · have hm : Tif.main env tt tiff gl
        = { exitCode := 0, cerr := (tt.init 1 tiff gl).2.cerr,
            frames := Tif.mainLoop (tt.init 1 tiff gl).1 Camera.new env.frames } := by
      simp [Tif.main, hglfw, hwin, hglew]
    rw [hm]
    refine ⟨rfl, ?_, tif_mainLoop_length _ _ _, fun f hf => tif_mem_mainLoop _ _ _ f hf⟩
    show (tt.init 1 tiff gl).2.cerr = _
    rw [ht 1]

/-- Witness for C14: `stbi_load` returns no data, `TIFFReadRGBAImage` fails, and the
window stays open for one frame. -/
theorem init_failure_keeps_objects_witness :
    (main tileConfig ⟨true, true, true, [⟨false, false, false, true, false, false⟩]⟩
      sampleTexture ⟨false, 0, 0⟩ sampleGL).exitCode = 0 ∧
    (main tileConfig ⟨true, true, true, [⟨false, false, false, true, false, false⟩]⟩
      sampleTexture ⟨false, 0, 0⟩ sampleGL).frames.length = 1 ∧
    ((⟨7, 7, 7, 7, 7, 7, none, 0, 0⟩ : Tif.Texture).init 1
      ⟨true, 640, 480, fun _ => true, false, 1⟩ sampleGL).1.textureID = 7 :=
  have h := init_failure_keeps_objects tileConfig
    ⟨true, true, true, [⟨false, false, false, true, false, false⟩]⟩
    sampleGL 1 sampleTexture ⟨7, 7, 7, 7, 7, 7, none, 0, 0⟩ ⟨7, 7, 7, 7, 7, 7, none, 0, 0⟩
    ⟨false, 0, 0⟩ ⟨true, 640, 480, fun _ => true, false, 1⟩ rfl rfl rfl rfl rfl
  ⟨h.2.2.2.1.1, h.2.2.2.1.2.2.1, h.2.2.1.2.2.2.2.2.2.1⟩

/-! ## Positions and texture coordinates -/

theorem vertexShader_translate_scale_plane (tx ty sx sy px py : ℚ) :
    vertexShader (glmScale (glmTranslate 1 tx ty 0) sx sy 1) (px, py, 0)
      = ![tx + sx * px, ty + sy * py, 0, 1] := by
  rw [vertexShader_translate_scale]
  simp

theorem renderTile_vertices_position (cfg : TileConfig) (t : Texture) (cam : Camera)
    (c r : Int) : (t.renderTile cfg cam c r).vertices.map (fun v => v.position)
      = [(0, 0, 0), (0, 1, 0), (1, 1, 0), (1, 0, 0)] := rfl

/-- C15: for an image of positive size, every tile that `Texture::render` draws and
each of its four quad corners: with `(X, Y)` the position that the tile's translation
and scaling `L` (the factor of the model transform that does not depend on the camera)
gives to the corner and `(u, v)` the texture coordinate of the corner, `u = (X + 1) / 2`
and `v = 1 - (Y + 1) / 2`.  The four corners of the quad that the JPEG and the TIFF
program upload, `(-a, -1)`, `(-a, 1)`, `(a, 1)`, `(a, -1)` with `a` the aspect ratio,
carry `(0, 1)`, `(0, 0)`, `(1, 0)`, `(1, 1)`, which is the same map once `X` is divided
by `a`: the V orientation of the three programs agrees. -/
theorem tile_texCoord_matches_position (cfg : TileConfig) (t : Texture) (camera : Nat)
    (w h : Int) (gl : GLObjects) (cam : Camera) (tj : Jpg.Texture) (tt : Tif.Texture)
    (tiff : Tif.TiffEnv) (hw : 0 < w) (hh : 0 < h) :
    (∀ d ∈ ((t.afterInit cfg camera w h gl).render cfg cam).2, ∃ L : Mat4,
      (∀ cam2 : Camera,
        ((t.afterInit cfg camera w h gl).renderTile cfg cam2 d.tileX d.tileY).model
          = cam2.getTransform * L) ∧
      d.model = cam.getTransform * L ∧
      d.vertices.map (fun v => v.position) = [(0, 0, 0), (0, 1, 0), (1, 1, 0), (1, 0, 0)] ∧
      ∀ v ∈ d.vertices, ∃ X Y : ℚ, vertexShader L v.position = ![X, Y, 0, 1] ∧
        v.texCoord = ((X + 1) / 2, 1 - (Y + 1) / 2)) ∧
    ((Jpg.vertices ((w : ℚ) / (h : ℚ))).map (fun v => (v.position, v.texCoord))
        = [((-((w : ℚ) / (h : ℚ)), -1, 0), (0, 1)), ((-((w : ℚ) / (h : ℚ)), 1, 0), (0, 0)),
           (((w : ℚ) / (h : ℚ), 1, 0), (1, 0)), (((w : ℚ) / (h : ℚ), -1, 0), (1, 1))] ∧
      Tif.vertices ((w : ℚ) / (h : ℚ)) = Jpg.vertices ((w : ℚ) / (h : ℚ)) ∧
      ∀ v ∈ Jpg.vertices ((w : ℚ) / (h : ℚ)),
        v.texCoord = ((v.position.1 / ((w : ℚ) / (h : ℚ)) + 1) / 2,
          1 - (v.position.2.1 + 1) / 2)) ∧
    ((tj.init camera { data := true, x := w, y := h } gl).2.buffers
        = some { vertices := Jpg.vertices ((w : ℚ) / (h : ℚ)), indices := [0, 1, 2, 0, 2, 3] } ∧
      ∀ b : Buffers, (tt.init camera tiff gl).2.buffers = some b →
        b.vertices = Tif.vertices (((tt.init camera tiff gl).1.imageWidth : ℚ)
          / ((tt.init camera tiff gl).1.imageHeight : ℚ))) := by
  have hwq : (w : ℚ) ≠ 0 := by exact_mod_cast (ne_of_gt hw)
  have hhq : (h : ℚ) ≠ 0 := by exact_mod_cast (ne_of_gt hh)
  have ha : (w : ℚ) / (h : ℚ) ≠ 0 := div_ne_zero hwq hhq
  refine ⟨?_, ⟨rfl, rfl, ?_⟩, ⟨rfl, ?_⟩⟩
  · intro d hd
    obtain ⟨c, r, _, _, _, _, rfl⟩ := mem_render_draws.1 hd
    refine ⟨_, fun cam2 => renderTile_model cfg _ cam2 c r, renderTile_model cfg _ cam c r,
      rfl, ?_⟩
    intro v hv
    simp only [Texture.renderTile, List.mem_cons, List.mem_singleton, List.not_mem_nil,
      or_false] at hv
    rcases hv with rfl | rfl | rfl | rfl
    · refine ⟨_, _, vertexShader_translate_scale_plane _ _ _ _ _ _, ?_⟩
      simp only [afterInit_imageWidth, afterInit_imageHeight, Prod.mk.injEq]
      constructor <;> ring
    · refine ⟨_, _, vertexShader_translate_scale_plane _ _ _ _ _ _, ?_⟩
      simp only [afterInit_imageWidth, afterInit_imageHeight, Prod.mk.injEq]
      constructor
      · ring
      · push_cast
        ring
    · refine ⟨_, _, vertexShader_translate_scale_plane _ _ _ _ _ _, ?_⟩
      simp only [afterInit_imageWidth, afterInit_imageHeight, Prod.mk.injEq]
      constructor
      · push_cast
        ring
      · push_cast
        ring
    · refine ⟨_, _, vertexShader_translate_scale_plane _ _ _ _ _ _, ?_⟩
      simp only [afterInit_imageWidth, afterInit_imageHeight, Prod.mk.injEq]
      constructor
      · push_cast
        ring
      · ring
  · intro v hv
    simp only [Jpg.vertices, List.mem_cons, List.mem_singleton, List.not_mem_nil,
      or_false] at hv
    rcases hv with rfl | rfl | rfl | rfl
    · simp only [Prod.mk.injEq, neg_div, div_self ha]
      constructor <;> norm_num
    · simp only [Prod.mk.injEq, neg_div, div_self ha]
      constructor <;> norm_num
    · simp only [Prod.mk.injEq, div_self ha]
      constructor <;> norm_num
    · simp only [Prod.mk.injEq, div_self ha]
      constructor <;> norm_num
  · intro b hb
    unfold Tif.Texture.init at hb ⊢
    dsimp only at hb ⊢
    split_ifs at hb ⊢
    · simp at hb
      rw [← hb]

/-- Witness for C15: the JPEG quad of a 600 x 400 image, aspect ratio 600/400. -/
theorem tile_texCoord_matches_position_witness :
    (Jpg.vertices (((600 : Int) : ℚ) / ((400 : Int) : ℚ))).map
        (fun v => (v.position, v.texCoord))
      = [((-(((600 : Int) : ℚ) / ((400 : Int) : ℚ)), -1, 0), (0, 1)),
         ((-(((600 : Int) : ℚ) / ((400 : Int) : ℚ)), 1, 0), (0, 0)),
         ((((600 : Int) : ℚ) / ((400 : Int) : ℚ), 1, 0), (1, 0)),
         ((((600 : Int) : ℚ) / ((400 : Int) : ℚ), -1, 0), (1, 1))] ∧
    ∃ L : Mat4,
      ((sampleLoaded 600 400).renderTile tileConfig Camera.new 2 1).model
        = Camera.new.getTransform * L ∧
      ∀ v ∈ ((sampleLoaded 600 400).renderTile tileConfig Camera.new 2 1).vertices,
        ∃ X Y : ℚ, vertexShader L v.position = ![X, Y, 0, 1] ∧
          v.texCoord = ((X + 1) / 2, 1 - (Y + 1) / 2) :=
  have hmem : (sampleLoaded 600 400).renderTile tileConfig Camera.new 2 1
      ∈ ((sampleLoaded 600 400).render tileConfig Camera.new).2 :=
    mem_render_draws.2 ⟨2, 1, by decide, by decide, by decide, by decide, rfl⟩
  have h := tile_texCoord_matches_position tileConfig sampleTexture 1 600 400 sampleGL
    Camera.new ⟨0, 0, 0, 0, 0, 0, none, 0, 0⟩ ⟨0, 0, 0, 0, 0, 0, none, 0, 0⟩
    ⟨true, 600, 400, fun _ => true, true, 1⟩ (by decide) (by decide)
  ⟨h.2.1.1, (h.1 _ hmem).elim fun L hL => ⟨L, hL.2.1, hL.2.2.2⟩⟩

/-! ## The pixel count of `loadTIFF` -/


/-- The requests of `loadTIFF` once the file is open and `_TIFFmalloc` has returned a
buffer. -/
theorem Tif.loadTIFF_trace (t : Tif.Texture) (env : Tif.TiffEnv)
    (hopen : env.opened = true) (hw : env.w < 2 ^ 32) (hh : env.h < 2 ^ 32)
    (hm : Tif.tiffMalloc env (env.w * env.h % 2 ^ 32 * 4) = true) :
    (t.loadTIFF env).2.2
      = { npixels := some (env.w * env.h % 2 ^ 32),
          mallocBytes := some (env.w * env.h % 2 ^ 32 * 4),
          readRGBA := some (env.w, env.h) } := by
  have hwm : env.w % 2 ^ 32 = env.w := Nat.mod_eq_of_lt hw
  have hhm : env.h % 2 ^ 32 = env.h := Nat.mod_eq_of_lt hh
  have hlt : env.w * env.h % 2 ^ 32 < 2 ^ 32 := Nat.mod_lt _ (by norm_num)
  have hb : env.w * env.h % 2 ^ 32 * 4 % 2 ^ 64 = env.w * env.h % 2 ^ 32 * 4 :=
    Nat.mod_eq_of_lt (by omega)
  unfold Tif.Texture.loadTIFF
  dsimp only
  rw [hwm, hhm, hb]
  split_ifs <;> first | rfl | simp_all

/-- The outcome of `loadTIFF` once the file is open and `_TIFFmalloc` has returned
`NULL`: it returns false and `TIFFReadRGBAImage` is not called. -/
theorem Tif.loadTIFF_no_buffer (t : Tif.Texture) (env : Tif.TiffEnv)
    (hopen : env.opened = true) (hw : env.w < 2 ^ 32) (hh : env.h < 2 ^ 32)
    (hm : Tif.tiffMalloc env (env.w * env.h % 2 ^ 32 * 4) = false) :
    (t.loadTIFF env).1 = false ∧
    (t.loadTIFF env).2.2
      = { npixels := some (env.w * env.h % 2 ^ 32),
          mallocBytes := some (env.w * env.h % 2 ^ 32 * 4),
          readRGBA := none } := by
  have hwm : env.w % 2 ^ 32 = env.w := Nat.mod_eq_of_lt hw
  have hhm : env.h % 2 ^ 32 = env.h := Nat.mod_eq_of_lt hh
  have hlt : env.w * env.h % 2 ^ 32 < 2 ^ 32 := Nat.mod_lt _ (by norm_num)
  have hb : env.w * env.h % 2 ^ 32 * 4 % 2 ^ 64 = env.w * env.h % 2 ^ 32 * 4 :=
    Nat.mod_eq_of_lt (by omega)
  unfold Tif.Texture.loadTIFF
  dsimp only
  rw [hwm, hhm, hb]
  split_ifs <;> first | exact ⟨rfl, rfl⟩ | simp_all

/-- The pixel count and the byte count of `loadTIFF` once the file is open. -/
theorem Tif.loadTIFF_npixels (t : Tif.Texture) (env : Tif.TiffEnv)
    (hopen : env.opened = true) (hw : env.w < 2 ^ 32) (hh : env.h < 2 ^ 32) :
    (t.loadTIFF env).2.2.npixels = some (env.w * env.h % 2 ^ 32) ∧
    (t.loadTIFF env).2.2.mallocBytes = some (env.w * env.h % 2 ^ 32 * 4) := by
  have hwm : env.w % 2 ^ 32 = env.w := Nat.mod_eq_of_lt hw
  have hhm : env.h % 2 ^ 32 = env.h := Nat.mod_eq_of_lt hh
  have hlt : env.w * env.h % 2 ^ 32 < 2 ^ 32 := Nat.mod_lt _ (by norm_num)
  have hb : env.w * env.h % 2 ^ 32 * 4 % 2 ^ 64 = env.w * env.h % 2 ^ 32 * 4 :=
    Nat.mod_eq_of_lt (by omega)
  unfold Tif.Texture.loadTIFF
  dsimp only
  rw [hwm, hhm, hb]
  split_ifs <;> first | exact ⟨rfl, rfl⟩ | simp_all

/-- Counterexample to C16 as stated: for `w = h = 65536` the local `npixels` is 0, so
`_TIFFmalloc` is asked for 0 bytes and returns `NULL`; `loadTIFF` returns false and
`TIFFReadRGBAImage` is not asked to fill anything, even when the allocator would grant
every request and the read would succeed. -/
theorem loadTIFF_zero_pixels_counterexample :
    ((⟨0, 0, 0, 0, 0, 0, none, 0, 0⟩ : Tif.Texture).loadTIFF
      ⟨true, 65536, 65536, fun _ => true, true, 1⟩).1 = false ∧
    ((⟨0, 0, 0, 0, 0, 0, none, 0, 0⟩ : Tif.Texture).loadTIFF
      ⟨true, 65536, 65536, fun _ => true, true, 1⟩).2.2
      = { npixels := some 0, mallocBytes := some 0, readRGBA := none } := by
  have e : 65536 * 65536 % 2 ^ 32 = 0 := by norm_num
  have h := Tif.loadTIFF_no_buffer ⟨0, 0, 0, 0, 0, 0, none, 0, 0⟩
    ⟨true, 65536, 65536, fun _ => true, true, 1⟩ rfl (by norm_num) (by norm_num)
    (by rw [e]; rfl)
  rw [e] at h
  exact h

/-- C16, amended: when `loadTIFF` has opened the file and read the 32-bit width `w` and
height `h`, the local `npixels` is `(w * h) mod 2^32` and `_TIFFmalloc` is asked for
four times that many bytes; this pixel count is `w * h`, and the buffer is large enough
for `w * h` pixels, exactly when `w * h < 2^32`.  Whenever `_TIFFmalloc` returns a
buffer, `TIFFReadRGBAImage` is asked for the full `w x h` image, as for `w = 65536`,
`h = 65537`, where the buffer has room for 65536 pixels only.  When `npixels` is 0, as
for `w = h = 65536`, `_TIFFmalloc` returns `NULL` and `loadTIFF` returns false before
`TIFFReadRGBAImage`. -/
theorem loadTIFF_buffer_and_request (t : Tif.Texture) (env : Tif.TiffEnv)
    (hopen : env.opened = true) (hw : env.w < 2 ^ 32) (hh : env.h < 2 ^ 32) :
    (t.loadTIFF env).2.2.npixels = some (env.w * env.h % 2 ^ 32) ∧
    (t.loadTIFF env).2.2.mallocBytes = some (env.w * env.h % 2 ^ 32 * 4) ∧
    (env.w * env.h % 2 ^ 32 = env.w * env.h ↔ env.w * env.h < 2 ^ 32) ∧
    (env.w * env.h ≤ env.w * env.h % 2 ^ 32 ↔ env.w * env.h < 2 ^ 32) ∧
    (Tif.tiffMalloc env (env.w * env.h % 2 ^ 32 * 4) = true →
      (t.loadTIFF env).2.2.readRGBA = some (env.w, env.h)) ∧
    (env.w * env.h % 2 ^ 32 = 0 →
      (t.loadTIFF env).1 = false ∧ (t.loadTIFF env).2.2.readRGBA = none) ∧
    (∀ (mallocOk : Nat → Bool) (readOk : Bool) (texture : Nat), mallocOk 262144 = true →
      (t.loadTIFF ⟨true, 65536, 65537, mallocOk, readOk, texture⟩).2.2
        = { npixels := some 65536, mallocBytes := some 262144,
            readRGBA := some (65536, 65537) }) := by
  have hlt : env.w * env.h % 2 ^ 32 < 2 ^ 32 := Nat.mod_lt _ (by norm_num)
  have hn := Tif.loadTIFF_npixels t env hopen hw hh
  refine ⟨hn.1, hn.2, ?_, ?_, ?_, ?_, ?_⟩
  · constructor
    · intro h
      omega
    · exact Nat.mod_eq_of_lt
  · constructor
    · intro h
      omega
    · intro h
      rw [Nat.mod_eq_of_lt h]
  · intro hm
    rw [Tif.loadTIFF_trace t env hopen hw hh hm]
  · intro hz
    have h := Tif.loadTIFF_no_buffer t env hopen hw hh (by rw [hz]; rfl)
    exact ⟨h.1, by rw [h.2]⟩
  · intro mallocOk readOk texture hm
    have e : 65536 * 65537 % 2 ^ 32 = 65536 := by norm_num
    have h := Tif.loadTIFF_trace t ⟨true, 65536, 65537, mallocOk, readOk, texture⟩ rfl
      (by norm_num) (by norm_num) (by rw [e]; simpa [Tif.tiffMalloc] using hm)
    rw [h, e]

/-- Witness for C16, amended: a 65536 x 65537 image whose buffer request is granted. -/
theorem loadTIFF_buffer_and_request_witness :
    ((⟨0, 0, 0, 0, 0, 0, none, 0, 0⟩ : Tif.Texture).loadTIFF
      ⟨true, 65536, 65537, fun _ => true, true, 1⟩).2.2.npixels
      = some (65536 * 65537 % 2 ^ 32) ∧
    ((⟨0, 0, 0, 0, 0, 0, none, 0, 0⟩ : Tif.Texture).loadTIFF
      ⟨true, 65536, 65537, fun _ => true, true, 1⟩).2.2.readRGBA = some (65536, 65537) :=
  have h := loadTIFF_buffer_and_request ⟨0, 0, 0, 0, 0, 0, none, 0, 0⟩
    ⟨true, 65536, 65537, fun _ => true, true, 1⟩ rfl (by norm_num) (by norm_num)
  have e : 65536 * 65537 % 2 ^ 32 * 4 = 262144 := by norm_num
  ⟨h.1, h.2.2.2.2.1 (by rw [e]; rfl)⟩
end IorpMonolithics
